import Mathlib

/-!
# A verification development for `ttf`, a small terminal-application engine

The Go package `ttf` (files `application.go`, `command.go`, `widget.go`) owns a
registry of single-key commands, a collection of weighted panels ("widgets")
and an input state machine.  This file embeds those operations as Lean
functions and proves properties of them.

Modelling conventions

* Go strings are modelled by Lean `String`s, i.e. by valid UTF-8 text.  Byte
  indexing `s[0]` is modelled by `byteAt0`, the first byte of the UTF-8
  encoding of the first character.
* Go `int` is modelled by `Int`.  Sizes and weights are far from the 64-bit
  range (weights are at most 10 per widget); the start index of the log
  window, computed from a height that may be any `int`, is wrapped to 64 bits
  explicitly (`wrapInt64`).
* `*Widget` pointers are addresses into a widget heap (`World.heap`); address
  `p` is live when `p < heap.length`.  A `nil` pointer or `nil` interface value
  is `none`.
* A Go `error` is modelled by `Option String`: `none` is `nil`, `some msg` is an
  error whose text is `msg`.
* The termui library is external.  Calls into it are recorded, in order, in
  `World.ui`; the only value the package reads back from it, the height of the
  main paragraph, is a parameter (`Backend`).
* `float64(a) / float64(b)` is represented by the pair of its integer operands
  (`Row.num`, `Row.den`); `Row.fraction` is the exact rational quotient.
* `slog` logging has no effect on the modelled state.
* The event channel is the list of the events it will deliver.  A receive on
  the exhausted channel does not return (`Abort.blocked`).  The loop of
  `ReadKey` is unrolled once per waiting event plus once, which is exact
  (`ReadKeyLoop_fuel`); the loop of `Run` takes the number of turns as a
  parameter, and more turns do not change a result (`RunLoop_mono`).
* The `Handle` hooks of the commands are a parameter (`Handler`); the example
  program `show_help_and_press_key_to_quit` supplies `exampleHandle`.
-/

set_option autoImplicit false

namespace Ttf

/-! ## Data model -/

/-- The type `applicationState` of `application.go`. -/
inductive applicationState where
  | applicationStateNormal
  | applicationStateTyping
  | applicationStateSubcommand
deriving DecidableEq, Repr

/-- The type `CommandType` of `command.go`. -/
inductive CommandType where
  | CommandTypeOneGo
  | CommandTypeStreaming
deriving DecidableEq, Repr

/-- A value of the interface `Command`: its identity together with the values
its getters `Title()`, `Trigger()`, `Description()` and `Type()` return.  The
hook `Handle` is supplied separately (see `Handler`); the hook `Refresh()`
receives no application and has no effect on the modelled state. -/
structure Command where
  ident : Nat
  title : String
  trigger : String
  description : String
  type : CommandType
deriving DecidableEq, Repr

/-- A non-nil `ui.Drawable`, identified by a number. -/
abbrev Drawable := Nat

/-- The struct `Widget` of `widget.go`. -/
structure Widget where
  drawable : Drawable
  title : String
  weight : Int
  visible : Bool
deriving DecidableEq, Repr

/-- What a grid row holds: the main paragraph or the drawable of a widget. -/
inductive RowEntry where
  | mainWidget
  | drawable (d : Drawable)
deriving DecidableEq, Repr

/-- The value `ui.NewRow(float64(num) / float64(den), entry)`. -/
structure Row where
  num : Int
  den : Int
  entry : RowEntry
deriving DecidableEq, Repr

/-- The exact quotient of the two operands of a row's height. -/
def Row.fraction (r : Row) : ℚ := (r.num : ℚ) / (r.den : ℚ)

/-- A call into the termui library, with its arguments. -/
inductive UiCall where
  | clear
  | renderGridAndCmd
  | renderCmd
  | renderMain
  | gridSetRect (x0 y0 x1 y1 : Int)
  | gridSet (rows : List Row)
  | cmdSetRect (x0 y0 x1 y1 : Int)
  | close
  | init
deriving DecidableEq, Repr

/-- A `ui.Event`, by its `Type`, carrying the `ID` or the resize payload. -/
inductive Event where
  | KeyboardEvent (id : String)
  | ResizeEvent (width height : Int)
  | MouseEvent (id : String)
deriving DecidableEq, Repr

/-- The fields `Title` and `Text` of a `widgets.Paragraph`. -/
structure Paragraph where
  title : String
  text : String
deriving DecidableEq, Repr

/-- The struct `Application`.  `commands` is the Go map as an association list
with pairwise distinct keys; `widgets` holds widget addresses; `uiEventChan`
holds the events the channel will deliver, next one first; `size` is the
`image.Point` as `(X, Y)`.  The grid `mainGrid` is only ever called into, and
those calls are recorded in `World.ui`. -/
structure Application where
  commands : List (String × Command)
  state : applicationState
  quitFlag : Bool
  cmdWidget : Paragraph
  cmdText : String
  mainWidget : Paragraph
  mainText : List String
  widgets : List Nat
  uiEventChan : List Event
  size : Int × Int
  title : String
deriving DecidableEq, Repr

/-- The application together with the widget objects its pointers refer to
and the termui calls made so far (oldest first). -/
structure World where
  app : Application
  heap : List Widget
  ui : List UiCall
deriving DecidableEq, Repr

/-- What the package reads back from termui: the `Y` of `app.mainWidget.Size()`,
which termui determines from the calls made so far. -/
structure Backend where
  mainWidgetSizeY : List UiCall → Int

/-- A computation that does not return: a Go panic, or a receive on an event
channel that delivers nothing more. -/
inductive Abort where
  | panic (msg : String)
  | blocked
deriving DecidableEq, Repr

/-- The constructor `NewApplication`. -/
def NewApplication (title : String) : Application :=
  { commands := [], state := .applicationStateNormal, quitFlag := false,
    cmdWidget := ⟨"", ""⟩, cmdText := "", mainWidget := ⟨"", ""⟩, mainText := [],
    widgets := [], uiEventChan := [], size := (0, 0), title := title }

/-! ## Go strings and maps -/

/-- The first byte of the UTF-8 encoding of a character. -/
def leadByte (c : Char) : Nat :=
  if c.toNat < 0x80 then c.toNat
  else if c.toNat < 0x800 then 0xC0 + c.toNat / 0x40
  else if c.toNat < 0x10000 then 0xE0 + c.toNat / 0x1000
  else 0xF0 + c.toNat / 0x40000

/-- The byte `s[0]` of a non-empty Go string `s`; `none` when `len(s) == 0`. -/
def byteAt0 (s : String) : Option Nat :=
  match s.data with
  | [] => none
  | c :: _ => some (leadByte c)

/-- The conversion `string(rune(b))` of a byte `b`: the one-character string
whose code point is `b`. -/
def runeString (b : Nat) : String := String.singleton (Char.ofNat b)

/-- Map lookup `m[k]` in the comma-ok form: the value bound to `k`, if any. -/
def mapGet (m : List (String × Command)) (k : String) : Option Command :=
  match m with
  | [] => none
  | (k', v) :: rest => if k' = k then some v else mapGet rest k

/-- Map assignment `m[k] = v`: bind `k` to `v`, replacing an earlier binding
of `k`. -/
def mapSet (m : List (String × Command)) (k : String) (v : Command) :
    List (String × Command) :=
  (k, v) :: m.filter (fun e => !decide (e.1 = k))

/-! ## Command registry -/

/-- The function `Application.AddCommand`: the loop over the variadic arguments, returning
the application as the call leaves it together with the error. -/
def AddCommand (app : Application) : List (Option Command) → Application × Option String
  | [] => (app, none)
  | none :: _ => (app, some "cannot add nil command")
  | some command :: rest =>
    let trigger := command.trigger
    match byteAt0 trigger with
    | none => (app, some "command trigger cannot be empty")
    | some b =>
      let runeKey := runeString b
      if (mapGet app.commands runeKey).isSome then
        (app, some ("command trigger '" ++ trigger ++ "' already exists"))
      else
        AddCommand { app with commands := mapSet app.commands runeKey command } rest

/-- The function `Application.findCommandByTrigger`. -/
def findCommandByTrigger (app : Application) (trigger : String) : Option Command :=
  if trigger.utf8ByteSize = 0 then none
  else mapGet app.commands trigger

/-! ## Widgets and layout -/

/-- Dereference a widget address.  Every address a Go program holds is live;
for an address outside the heap the zero `Widget` is returned. -/
def deref (heap : List Widget) (p : Nat) : Widget :=
  heap.getD p ⟨0, "", 0, false⟩

/-- The function `NewWidget`: on success the new object is allocated at the next free
address, which is returned. -/
def NewWidget (heap : List Widget) (drawable : Option Drawable) (title : String)
    (weight : Int) : List Widget × Except String Nat :=
  match drawable with
  | none => (heap, .error "drawable cannot be nil")
  | some d =>
    if weight < 1 ∨ weight > 10 then
      (heap, .error "weight must be between 1 and 10")
    else
      (heap ++ [{ drawable := d, title := title, weight := weight, visible := false }],
        .ok heap.length)

/-- The constant `mainWidgetWeight` of `recalculateWidgetSizes`. -/
def mainWidgetWeight : Int := 6

/-- The first loop of `recalculateWidgetSizes`: starting from the widgets
collected so far and the weight accumulated so far, walk the collection and
return `(visibleWidgets, totalWeight)`. -/
def collectVisible (heap : List Widget) :
    List Nat → List Nat × Int → List Nat × Int
  | [], acc => acc
  | p :: rest, (visibleWidgets, totalWeight) =>
    if (deref heap p).visible then
      collectVisible heap rest (visibleWidgets ++ [p], totalWeight + (deref heap p).weight)
    else
      collectVisible heap rest (visibleWidgets, totalWeight)

/-- The rows `recalculateWidgetSizes` hands to `mainGrid.Set`. -/
def layoutRows (heap : List Widget) (widgets : List Nat) : List Row :=
  let r := collectVisible heap widgets ([], mainWidgetWeight)
  let visibleWidgets := r.1
  let totalWeight := r.2
  let rows : List Row := [⟨mainWidgetWeight, totalWeight, .mainWidget⟩]
  visibleWidgets.foldl
    (fun rows p => rows ++ [⟨(deref heap p).weight, totalWeight, .drawable (deref heap p).drawable⟩])
    rows

/-- The function `Application.recalculateWidgetSizes`. -/
def recalculateWidgetSizes (w : World) : World :=
  let rows := layoutRows w.heap w.app.widgets
  { w with ui := w.ui ++
      [ .gridSetRect 0 0 w.app.size.1 (w.app.size.2 - 3),
        .gridSet rows,
        .cmdSetRect 0 (w.app.size.2 - 3) w.app.size.1 w.app.size.2 ] }

/-- The value a Go `int` holds after an arithmetic operation whose exact
result is `x`: the result wrapped to 64 bits, two's complement. -/
def wrapInt64 (x : Int) : Int :=
  (x + 9223372036854775808) % 18446744073709551616 - 9223372036854775808

/-- The index `startIndex` at which `refreshMainWidget` slices a log of `n`
lines, `n > 0`, for the height `y` of the main paragraph:
`len(app.mainText) - widgetSize.Y + 2` in 64-bit arithmetic, then the two
clamps. -/
def displayStart (n : Nat) (y : Int) : Int :=
  let startIndex : Int := wrapInt64 (wrapInt64 ((n : Int) - y) + 2)
  let startIndex := if startIndex ≥ (n : Int) then (n : Int) - 1 else startIndex
  if startIndex < 0 then 0 else startIndex

/-- The text `refreshMainWidget` computes from the log and the height `y` of
the main paragraph. -/
def displayText (mainText : List String) (y : Int) : String :=
  if mainText.length > 0 then
    String.intercalate "\n" (mainText.drop (displayStart mainText.length y).toNat)
  else ""

/-- The function `Application.refreshMainWidget`; its `ui.Render` call renders
the main paragraph alone. -/
def refreshMainWidget (tui : Backend) (w : World) : World :=
  let y := tui.mainWidgetSizeY w.ui
  { w with
    app := { w.app with mainWidget := { w.app.mainWidget with text := displayText w.app.mainText y } }
    ui := w.ui ++ [.renderMain] }

/-- The function `Application.redrawWidgets`.  The final loop calls `Refresh()` on every
registered command, which leaves the modelled state as it is. -/
def redrawWidgets (tui : Backend) (w : World) : World :=
  refreshMainWidget tui { w with ui := w.ui ++ [.clear, .renderGridAndCmd] }

/-- The function `Application.NewAndAddWidget`. -/
def NewAndAddWidget (tui : Backend) (w : World) (command : Option Command)
    (widget : Option Drawable) (weight : Int) : World × Option Nat × Option String :=
  match command with
  | none => (w, none, some "cannot create widget for nil command")
  | some command =>
    match widget with
    | none => (w, none, some "cannot create widget with nil drawable")
    | some d =>
      match NewWidget w.heap (some d) command.title weight with
      | (_, .error err) => (w, none, some ("failed to create widget: " ++ err))
      | (heap, .ok newWidget) =>
        let w := { w with heap := heap, app := { w.app with widgets := w.app.widgets ++ [newWidget] } }
        (redrawWidgets tui (recalculateWidgetSizes w), some newWidget, none)

/-- The function `Application.ShowWidget`. -/
def ShowWidget (tui : Backend) (w : World) (widget : Option Nat) : World × Option String :=
  match widget with
  | none => (w, some "cannot show nil widget")
  | some p =>
    if !(deref w.heap p).visible then
      let w := { w with heap := w.heap.set p { deref w.heap p with visible := true } }
      (redrawWidgets tui (recalculateWidgetSizes w), none)
    else
      (w, none)

/-- The function `Application.HideWidget`. -/
def HideWidget (tui : Backend) (w : World) (widget : Option Nat) : World × Option String :=
  match widget with
  | none => (w, some "cannot hide nil widget")
  | some p =>
    if (deref w.heap p).visible then
      let w := { w with heap := w.heap.set p { deref w.heap p with visible := false } }
      (redrawWidgets tui (recalculateWidgetSizes w), none)
    else
      (w, none)

/-! ## Printing and keyboard input -/

/-- The function `strings.Split(s, "\n")` on the characters of `s`. -/
def splitNewline : List Char → List (List Char)
  | [] => [[]]
  | c :: cs =>
    if c = '\n' then [] :: splitNewline cs
    else
      match splitNewline cs with
      | [] => [[c]]
      | l :: ls => (c :: l) :: ls

/-- The function `Application.Printf`, applied to the string `fmt.Sprintf` returns. -/
def Printf (tui : Backend) (w : World) (stringToPrint : String) : World :=
  let stringsByLine := (splitNewline stringToPrint.data).map String.mk
  refreshMainWidget tui { w with app := { w.app with mainText := w.app.mainText ++ stringsByLine } }

/-- The hook `Handle` of the registered commands: given the command, the
state `σ` owned by the embedding program and the world, it returns the new
state and world with the error, or does not return. -/
abbrev Handler (σ : Type) := Command → σ → World → Except Abort (σ × World × Option String)

/-- The function `Application.keyboardInputTyping`. -/
def keyboardInputTyping {σ : Type} (_s : σ) (_w : World) (_id : String) : Except Abort (σ × World) :=
  .error (.panic "keyboardInputTyping not implemented yet")

/-- The function `Application.keyboardInputNormal`. -/
def keyboardInputNormal {σ : Type} (tui : Backend) (handle : Handler σ) (s : σ) (w : World)
    (id : String) : Except Abort (σ × World) :=
  if id = ">" then
    .ok (s, { w with
      app := { w.app with state := .applicationStateTyping,
                          cmdWidget := { w.app.cmdWidget with text := "> " } }
      ui := w.ui ++ [.renderCmd] })
  else
    match findCommandByTrigger w.app id with
    | none => .ok (s, Printf tui w ("key '" ++ id ++ "' is not mapped to any command."))
    | some command =>
      match handle command s w with
      | .error a => .error a
      | .ok (s, w, some err) =>
        .ok (s, Printf tui w ("Error handling command '" ++ command.title ++ "': " ++ err))
      | .ok (s, w, none) => .ok (s, w)

/-- The function `Application.handleKeyboardInput`. -/
def handleKeyboardInput {σ : Type} (tui : Backend) (handle : Handler σ) (s : σ) (w : World)
    (id : String) : Except Abort (σ × World) :=
  match w.app.state with
  | .applicationStateNormal => keyboardInputNormal tui handle s w id
  | .applicationStateSubcommand => keyboardInputTyping s w id
  | .applicationStateTyping => .ok (s, w)

/-- The number of layout recalculations recorded in a sequence of termui
calls: each run of `recalculateWidgetSizes` makes exactly one `mainGrid.Set`. -/
def recalcCount (ui : List UiCall) : Nat :=
  ui.countP (fun c => match c with | .gridSet _ => true | _ => false)

/-- The number of `ui.Close()` calls recorded in a sequence of termui calls. -/
def closeCount (ui : List UiCall) : Nat :=
  ui.countP (fun c => match c with | .close => true | _ => false)

/-! ## Initialisation, events and the run loop -/

/-- The function `Application.Initialize`, for a terminal of the dimensions
`dims` that `ui.TerminalDimensions()` reports.  A failure of `ui.Init()`
terminates the process and is not modelled. -/
def Initialize (tui : Backend) (w : World) (dims : Int × Int) : World :=
  let w := { w with
    app := { w.app with
      mainText := [], widgets := [], size := dims,
      mainWidget := { title := w.app.title, text := "" },
      cmdWidget := { title := "Command", text := "" } }
    ui := w.ui ++ [.init] }
  redrawWidgets tui (recalculateWidgetSizes w)

/-- The function `Application.Quit`. -/
def Quit (w : World) : World :=
  { w with ui := w.ui ++ [.close], app := { w.app with quitFlag := true } }

/-- The function `Application.onTerminalResize`. -/
def onTerminalResize (tui : Backend) (w : World) (size : Int × Int) : World :=
  redrawWidgets tui (recalculateWidgetSizes { w with app := { w.app with size := size } })

/-- The field `ID` of a `ui.Event`; a resize event carries the id `<Resize>`. -/
def Event.ID : Event → String
  | .KeyboardEvent id => id
  | .ResizeEvent _ _ => "<Resize>"
  | .MouseEvent id => id

/-- The function `Application.handleDefaultEvent`: receive one event from the
channel and return the world with the event handed back to the caller, if
any.  A receive on a channel that delivers nothing more does not return. -/
def handleDefaultEvent (tui : Backend) (w : World) : Except Abort (World × Option Event) :=
  match w.app.uiEventChan with
  | [] => .error .blocked
  | e :: rest =>
    let w := { w with app := { w.app with uiEventChan := rest } }
    match e with
    | .KeyboardEvent id =>
      if id = "<C-c>" then
        .ok (Quit (Printf tui w "Ctrl-C detected, quitting application...\n"), none)
      else
        .ok (w, some e)
    | .ResizeEvent width height => .ok (onTerminalResize tui w (width, height), none)
    | .MouseEvent _ => .ok (w, none)

/-- The loop of `Application.ReadKey`, unrolled at most `fuel` times. -/
def ReadKeyLoop (tui : Backend) : Nat → World → Except Abort (World × String × Option String)
  | 0, _ => .error .blocked
  | fuel + 1, w =>
    match handleDefaultEvent tui w with
    | .error a => .error a
    | .ok (w, some event) => .ok (w, event.ID, none)
    | .ok (w, none) => ReadKeyLoop tui fuel w

/-- The function `Application.ReadKey`.  Every turn of its loop receives one
event, so one turn more than there are events to come is enough: the loop
either returns within them or blocks on the exhausted channel. -/
def ReadKey (tui : Backend) (w : World) : Except Abort (World × String × Option String) :=
  ReadKeyLoop tui (w.app.uiEventChan.length + 1) w

/-- The loop of `Application.Run`, unrolled at most `fuel` times; `none` when
the loop is still running after `fuel` turns. -/
def RunLoop {σ : Type} (tui : Backend) (handle : Handler σ) :
    Nat → σ → World → Option (Except Abort (σ × World))
  | 0, s, w => if w.app.quitFlag then some (.ok (s, w)) else none
  | fuel + 1, s, w =>
    if w.app.quitFlag then some (.ok (s, w))
    else
      match handleDefaultEvent tui w with
      | .error a => some (.error a)
      | .ok (w, none) => RunLoop tui handle fuel s w
      | .ok (w, some event) =>
        match handleKeyboardInput tui handle s w event.ID with
        | .error a => some (.error a)
        | .ok (s, w) => RunLoop tui handle fuel s w

/-- The function `Application.Run`, on the events `events` that the channel
returned by `ui.PollEvents()` delivers. -/
def Run {σ : Type} (tui : Backend) (handle : Handler σ) (fuel : Nat) (s : σ) (w : World)
    (events : List Event) : Option (Except Abort (σ × World)) :=
  RunLoop tui handle fuel s { w with app := { w.app with uiEventChan := events } }

/-! ## The example program `show_help_and_press_key_to_quit` -/

/-- The type `helpCommandState` of `help_command.go`. -/
inductive helpCommandState where
  | helpCommandStateUninitialized
  | helpCommandStateVisible
  | helpCommandStateHidden
deriving DecidableEq, Repr

/-- The struct `helpCommand`; `widget` is the pointer it keeps, nil at first. -/
structure helpCommand where
  state : helpCommandState
  widget : Option Nat
deriving DecidableEq, Repr

/-- The struct `quitCommand`, which has no field. -/
structure quitCommand where
deriving DecidableEq, Repr

/-- The `Command` value of the help command: what its getters return. -/
def helpCommand.toCommand : Command :=
  { ident := 1, title := "Help", trigger := "h",
    description := "Show help information. Press 'h' to toggle visibility.",
    type := .CommandTypeStreaming }

/-- The `Command` value of the quit command: what its getters return. -/
def quitCommand.toCommand : Command :=
  { ident := 0, title := "Quit the application", trigger := "q",
    description := "Quit the application. Press 'y' to confirm.",
    type := .CommandTypeOneGo }

/-- The paragraph `helpCommand.Handle` allocates with `widgets.NewParagraph()`. -/
def helpDrawable : Drawable := 0

/-- The method `helpCommand.showWidget`. -/
def helpCommand.showWidget (tui : Backend) (c : helpCommand) (w : World) : World × Option String :=
  ShowWidget tui w c.widget

/-- The method `helpCommand.hideWidget`. -/
def helpCommand.hideWidget (tui : Backend) (c : helpCommand) (w : World) : World × Option String :=
  HideWidget tui w c.widget

/-- The switch that ends `helpCommand.Handle`. -/
def helpCommand.toggle (tui : Backend) (c : helpCommand) (w : World) :
    helpCommand × World × Option String :=
  match c.state with
  | .helpCommandStateHidden =>
    let c := { c with state := .helpCommandStateVisible }
    (c, helpCommand.showWidget tui c w)
  | .helpCommandStateVisible =>
    let c := { c with state := .helpCommandStateHidden }
    (c, helpCommand.hideWidget tui c w)
  | .helpCommandStateUninitialized =>
    (c, w, some "invalid help command state: 0")

/-- The method `helpCommand.Handle`. -/
def helpCommand.Handle (tui : Backend) (c : helpCommand) (w : World) :
    helpCommand × World × Option String :=
  if c.state = .helpCommandStateUninitialized then
    match NewAndAddWidget tui w (some helpCommand.toCommand) (some helpDrawable) 4 with
    | (w, widget, some err) => ({ c with widget := widget }, w, some err)
    | (w, widget, none) =>
      helpCommand.toggle tui { c with widget := widget, state := .helpCommandStateHidden } w
  else
    helpCommand.toggle tui c w

/-- The method `quitCommand.Handle`. -/
def quitCommand.Handle (tui : Backend) (w : World) : Except Abort (World × Option String) :=
  let w := Printf tui w "Quit? press 'y' to confirm, any other key to cancel."
  match ReadKey tui w with
  | .error a => .error a
  | .ok (w, _, some err) => .ok (w, some err)
  | .ok (w, userInput, none) =>
    if userInput = "y" then
      .ok (Quit (Printf tui w "Quitting application..."), none)
    else
      .ok (Printf tui w "Quit cancelled.", none)

/-- The `Handle` hooks of the two commands the example registers; the state of
the embedding program is the help command object. -/
def exampleHandle (tui : Backend) : Handler helpCommand :=
  fun command c w =>
    if command = quitCommand.toCommand then
      match quitCommand.Handle tui w with
      | .error a => .error a
      | .ok (w, err) => .ok (c, w, err)
    else if command = helpCommand.toCommand then
      .ok (helpCommand.Handle tui c w)
    else
      .ok (c, w, none)

/-- The application `main` runs the loop on: created, initialised on a
terminal of the dimensions `dims`, with the two commands registered. -/
def exampleWorld (tui : Backend) (dims : Int × Int) : World :=
  let w := Initialize tui { app := NewApplication "Welcome to TTF Application", heap := [], ui := [] } dims
  { w with app := (AddCommand w.app [some quitCommand.toCommand, some helpCommand.toCommand]).1 }

/-- The help command object `main` creates: `&helpCommand{}`. -/
def helpCommand.zero : helpCommand :=
  { state := .helpCommandStateUninitialized, widget := none }

/-! ## The registry in closed form -/

/-- The key under which `AddCommand` binds a command, `string(rune(trigger[0]))`;
`none` when the trigger is empty. -/
def registryKey (c : Command) : Option String :=
  (byteAt0 c.trigger).map runeString

/-- The argument `x` is one `AddCommand` rejects when it is reached with the
registry `reg` of before the call and the arguments `earlier` already accepted:
it is nil, or its trigger is empty, or its key is bound in `reg` or is the key
of an earlier argument. -/
def Rejected (reg : List (String × Command)) (earlier : List (Option Command))
    (x : Option Command) : Prop :=
  match x with
  | none => True
  | some c =>
    match registryKey c with
    | none => True
    | some k => (mapGet reg k).isSome = true ∨ ∃ c', some c' ∈ earlier ∧ registryKey c' = some k

/-! ## The layout in the words of the specification -/

/-- The addresses of the visible widgets of a collection, in collection order. -/
def visibleWidgets (heap : List Widget) (widgets : List Nat) : List Nat :=
  widgets.filter (fun p => (deref heap p).visible)

/-- The total weight as the specification words it: the weight of the primary
panel plus the sum of the weights of the visible widgets. -/
def totalWeight (heap : List Widget) (widgets : List Nat) : Int :=
  mainWidgetWeight + ((visibleWidgets heap widgets).map (fun p => (deref heap p).weight)).sum

/-- The row of a widget over the total `t`. -/
def widgetRow (heap : List Widget) (t : Int) (p : Nat) : Row :=
  { num := (deref heap p).weight, den := t, entry := .drawable (deref heap p).drawable }

/-- The row list as the specification words it: the primary panel over the
total weight, then each visible widget over the total weight. -/
def specRows (heap : List Widget) (widgets : List Nat) : List Row :=
  { num := mainWidgetWeight, den := totalWeight heap widgets, entry := .mainWidget } ::
    (visibleWidgets heap widgets).map (widgetRow heap (totalWeight heap widgets))

/-- The shape of the widget collection in every state the package can reach:
no address occurs twice and every address is live. -/
def WellFormed (w : World) : Prop :=
  w.app.widgets.Nodup ∧ ∀ p ∈ w.app.widgets, p < w.heap.length

/-! ## Sample inputs for the concrete evaluations -/

/-- A command with the given identity and trigger. -/
def sampleCommand (ident : Nat) (trigger : String) : Command :=
  { ident := ident, title := "cmd " ++ trigger, trigger := trigger, description := "",
    type := .CommandTypeOneGo }

/-- A registry in which "q" is bound. -/
def registryWithQ : Application :=
  (AddCommand (NewApplication "t") [some (sampleCommand 0 "q")]).1

/-- A backend that reports a main paragraph ten rows high. -/
def sampleBackend : Backend := ⟨fun _ => 10⟩

/-- An initialised application on an 80 by 24 terminal, before any command or
widget is added. -/
def emptyWorld : World :=
  { app := { NewApplication "t" with size := (80, 24) }, heap := [], ui := [] }

/-- The world after two widgets of weights 4 and 10 are created and shown. -/
def twoShownWorld : World :=
  let w1 := (NewAndAddWidget sampleBackend emptyWorld (some (sampleCommand 1 "h")) (some 7) 4).1
  let w2 := (NewAndAddWidget sampleBackend w1 (some (sampleCommand 2 "i")) (some 8) 10).1
  let w3 := (ShowWidget sampleBackend w2 (some 0)).1
  (ShowWidget sampleBackend w3 (some 1)).1

/-- The application of `emptyWorld` after the line-entry key: state Typing. -/
def typingWorld : World :=
  { emptyWorld with app := { emptyWorld.app with state := .applicationStateTyping } }

/-- The application of `emptyWorld` put in state Subcommand. -/
def subcommandWorld : World :=
  { emptyWorld with app := { emptyWorld.app with state := .applicationStateSubcommand } }

/-- A `Handle` hook that returns nil without doing anything. -/
def idleHandler : Handler Unit := fun _ s w => .ok (s, w, none)

/-- The example application on an 80 by 24 terminal, as `main` starts the loop
on it. -/
def exampleStart : World := exampleWorld sampleBackend (80, 24)

/-- A `Handle` hook that counts its invocations in the state of the embedding
program and returns the error "boom" without touching the application. -/
def failingHandler : Handler Nat := fun _ n w => .ok (n + 1, w, some "boom")

/-- An application in which a command is registered under the trigger ">". -/
def promptBoundWorld : World :=
  { emptyWorld with app := (AddCommand emptyWorld.app [some (sampleCommand 3 ">")]).1 }

/-- The size after the resize events of a sequence of events are applied in
order to the size `size`: that of the last resize event, if there is one. -/
def lastResize : List Event → Int × Int → Int × Int
  | [], size => size
  | .ResizeEvent width height :: rest, _ => lastResize rest (width, height)
  | .KeyboardEvent _ :: rest, size => lastResize rest size
  | .MouseEvent _ :: rest, size => lastResize rest size

/-- The world `w` with the events `events` waiting in the channel. -/
def withEvents (w : World) (events : List Event) : World :=
  { w with app := { w.app with uiEventChan := events } }

/-- A Ctrl-C followed by the keys "x" and "z". -/
def ctrlCThenKeys : List Event :=
  [.KeyboardEvent "<C-c>", .KeyboardEvent "x", .KeyboardEvent "z"]

/-- A mouse event and two resize events. -/
def readKeyBefore : List Event :=
  [.MouseEvent "<MouseLeft>", .ResizeEvent 100 40, .ResizeEvent 90 30]

/-- The events of `readKeyBefore`, then the keys "y" and "z". -/
def readKeyEvents : List Event :=
  readKeyBefore ++ [.KeyboardEvent "y", .KeyboardEvent "z"]

/-- A log of eight lines. -/
def eightLines : List String := ["a", "b", "c", "d", "e", "f", "g", "h"]

/-- The height of the rectangle last given to the grid in a sequence of termui
calls; 0 when none was given. -/
def lastGridHeight (ui : List UiCall) : Int :=
  ui.foldl (fun h c => match c with | .gridSetRect _ y0 _ y1 => y1 - y0 | _ => h) 0

/-- A backend that lays the main paragraph out over the whole rectangle of
the grid, as termui does for a grid whose only row has the fraction 6/6: the
height of the paragraph is the height of the rectangle last given to the grid. -/
def fullHeightBackend : Backend := ⟨lastGridHeight⟩

/-- The example application on an 80 by 24 terminal with a log of eight
lines, "a" to "h", and no widget. -/
def eightLineWorld : World :=
  Printf fullHeightBackend (exampleWorld fullHeightBackend (80, 24)) "a\nb\nc\nd\ne\nf\ng\nh"

/-- Whether a sequence of termui calls holds a `ui.Close()` made after an
earlier `ui.Close()`, that is, on a backend already closed.  Such a call is
made by the package, but whether it returns is the backend's matter. -/
def closedAgain : List UiCall → Bool
  | [] => false
  | .close :: rest => decide (0 < closeCount rest)
  | _ :: rest => closedAgain rest

/-- The property that the quit flag is set only with the backend closed. -/
def QuitClosed (w : World) : Prop :=
  w.app.quitFlag = true → 1 ≤ closeCount w.ui

/-- The relation between a world and a later one when nothing in between has
set the quit flag or closed the backend. -/
def NoQuit (w w' : World) : Prop :=
  w'.app.quitFlag = w.app.quitFlag ∧ closeCount w'.ui = closeCount w.ui

/-! # Theorems -/

/-! ## The command registry: lemmas -/

theorem mapGet_filter_ne (m : List (String × Command)) (k k' : String) (h : k ≠ k') :
    mapGet (m.filter (fun e => !decide (e.1 = k))) k' = mapGet m k' := by
  induction m with
  | nil => rfl
  | cons e rest ih =>
    obtain ⟨a, v⟩ := e
    by_cases hak : a = k
    · subst hak
      simp [List.filter, mapGet, h, ih]
    · simp [List.filter, mapGet, hak, ih]

theorem mapGet_mapSet (m : List (String × Command)) (k k' : String) (v : Command) :
    mapGet (mapSet m k v) k' = if k = k' then some v else mapGet m k' := by
  unfold mapSet
  by_cases h : k = k'
  · simp [mapGet, h]
  · simp [mapGet, h, mapGet_filter_ne m k k' h]

theorem AddCommand_nil (app : Application) : AddCommand app [] = (app, none) := rfl

theorem AddCommand_none_cons (app : Application) (rest : List (Option Command)) :
    AddCommand app (none :: rest) = (app, some "cannot add nil command") := rfl

theorem AddCommand_empty_trigger (app : Application) (c : Command)
    (rest : List (Option Command)) (h : byteAt0 c.trigger = none) :
    AddCommand app (some c :: rest) = (app, some "command trigger cannot be empty") := by
  simp [AddCommand, h]

theorem AddCommand_bound (app : Application) (c : Command) (rest : List (Option Command))
    (b : Nat) (h : byteAt0 c.trigger = some b)
    (hb : (mapGet app.commands (runeString b)).isSome = true) :
    AddCommand app (some c :: rest) =
      (app, some ("command trigger '" ++ c.trigger ++ "' already exists")) := by
  simp [AddCommand, h, hb]

theorem AddCommand_free (app : Application) (c : Command) (rest : List (Option Command))
    (b : Nat) (h : byteAt0 c.trigger = some b)
    (hb : mapGet app.commands (runeString b) = none) :
    AddCommand app (some c :: rest) =
      AddCommand { app with commands := mapSet app.commands (runeString b) c } rest := by
  simp [AddCommand, h, hb]

/-- A binding present before `AddCommand` is still present afterwards, whether
or not the call fails. -/
theorem AddCommand_keeps (cmds : List (Option Command)) :
    ∀ (app : Application) (k : String) (c : Command),
      mapGet app.commands k = some c → mapGet (AddCommand app cmds).1.commands k = some c := by
  induction cmds with
  | nil => intro app k c h; simpa [AddCommand] using h
  | cons x rest ih =>
    intro app k c h
    cases x with
    | none => simpa [AddCommand] using h
    | some cmd =>
      cases hb : byteAt0 cmd.trigger with
      | none => rw [AddCommand_empty_trigger app cmd rest hb]; exact h
      | some b =>
        cases hg : mapGet app.commands (runeString b) with
        | some c0 =>
          rw [AddCommand_bound app cmd rest b hb (by simp [hg])]; exact h
        | none =>
          rw [AddCommand_free app cmd rest b hb hg]
          apply ih
          simp only [mapGet_mapSet]
          have hne : runeString b ≠ k := by
            intro hk
            rw [hk, h] at hg
            exact Option.noConfusion hg
          simp [hne, h]

/-- Whatever `AddCommand` does, it touches no field other than `commands`. -/
theorem AddCommand_frame (cmds : List (Option Command)) :
    ∀ app : Application,
      (AddCommand app cmds).1 = { app with commands := (AddCommand app cmds).1.commands } := by
  induction cmds with
  | nil => intro app; rfl
  | cons x rest ih =>
    intro app
    cases x with
    | none => rfl
    | some cmd =>
      cases hb : byteAt0 cmd.trigger with
      | none => rw [AddCommand_empty_trigger app cmd rest hb]
      | some b =>
        cases hg : mapGet app.commands (runeString b) with
        | some c0 => rw [AddCommand_bound app cmd rest b hb (by simp [hg])]
        | none =>
          rw [AddCommand_free app cmd rest b hb hg]
          exact ih _

/-! ## C1: a failed registration -/

/-- C1, as stated, fails: registering two commands that share the trigger "a"
in one call on a fresh application returns an error, yet the registry has
changed: the first of the two is now bound to "a". -/
theorem C1_registry_changed_by_failed_call :
    (AddCommand (NewApplication "t") [some (sampleCommand 1 "a"), some (sampleCommand 2 "a")]).2
        = some "command trigger 'a' already exists" ∧
      (AddCommand (NewApplication "t")
          [some (sampleCommand 1 "a"), some (sampleCommand 2 "a")]).1.commands
        ≠ (NewApplication "t").commands ∧
      findCommandByTrigger (NewApplication "t") "a" = none ∧
      findCommandByTrigger
          (AddCommand (NewApplication "t")
            [some (sampleCommand 1 "a"), some (sampleCommand 2 "a")]).1 "a"
        = some (sampleCommand 1 "a") := by
  decide

/-- C1, amended: when `AddCommand` returns an error `e`, the arguments split
into the commands `pre` before the first rejected argument `bad` and the rest;
the application is left exactly as a successful registration of `pre` leaves
it, `bad` is the argument that application rejects with `e`, every binding
present before the call is still present, no field other than the registry is
touched, and the registry equals the one before the call exactly when the
rejected argument is the first one. -/
theorem C1_failed_call_keeps_accepted_prefix (cmds : List (Option Command)) :
    ∀ (app : Application) (e : String), (AddCommand app cmds).2 = some e →
      ∃ (pre : List Command) (bad : Option Command) (post : List (Option Command)),
        cmds = pre.map some ++ bad :: post ∧
        AddCommand app (pre.map some) = ((AddCommand app cmds).1, none) ∧
        AddCommand (AddCommand app cmds).1 [bad] = ((AddCommand app cmds).1, some e) ∧
        (∀ k c, mapGet app.commands k = some c →
          mapGet (AddCommand app cmds).1.commands k = some c) ∧
        (AddCommand app cmds).1 = { app with commands := (AddCommand app cmds).1.commands } ∧
        ((AddCommand app cmds).1.commands = app.commands ↔ pre = []) := by
  induction cmds with
  | nil => intro app e h; simp [AddCommand] at h
  | cons x rest ih =>
    intro app e h
    have hkeep := AddCommand_keeps (x :: rest) app
    have hframe := AddCommand_frame (x :: rest) app
    cases x with
    | none =>
      refine ⟨[], none, rest, rfl, ?_, ?_, hkeep, hframe, ?_⟩
      · simp [AddCommand]
      · simpa [AddCommand] using h
      · simp [AddCommand]
    | some cmd =>
      cases hb : byteAt0 cmd.trigger with
      | none =>
        rw [AddCommand_empty_trigger app cmd rest hb] at h
        refine ⟨[], some cmd, rest, rfl, ?_, ?_, hkeep, hframe, ?_⟩
        · rw [AddCommand_empty_trigger app cmd rest hb]; rfl
        · rw [AddCommand_empty_trigger app cmd rest hb, AddCommand_empty_trigger app cmd [] hb]
          simpa using h
        · rw [AddCommand_empty_trigger app cmd rest hb]; simp
      | some b =>
        cases hg : mapGet app.commands (runeString b) with
        | some c0 =>
          have hs : (mapGet app.commands (runeString b)).isSome = true := by simp [hg]
          rw [AddCommand_bound app cmd rest b hb hs] at h
          refine ⟨[], some cmd, rest, rfl, ?_, ?_, hkeep, hframe, ?_⟩
          · rw [AddCommand_bound app cmd rest b hb hs]; rfl
          · rw [AddCommand_bound app cmd rest b hb hs, AddCommand_bound app cmd [] b hb hs]
            simpa using h
          · rw [AddCommand_bound app cmd rest b hb hs]; simp
        | none =>
          have hstep := AddCommand_free app cmd rest b hb hg
          rw [hstep] at h
          obtain ⟨pre, bad, post, hsplit, hpre, hbad, _, _, _⟩ := ih _ e h
          refine ⟨cmd :: pre, bad, post, ?_, ?_, ?_, hkeep, hframe, ?_⟩
          · simp [hsplit]
          · rw [hstep, List.map_cons, AddCommand_free app cmd (pre.map some) b hb hg]
            exact hpre
          · rw [hstep]; exact hbad
          · constructor
            · intro heq
              exfalso
              have h1 : mapGet (AddCommand app (some cmd :: rest)).1.commands (runeString b)
                  = some cmd := by
                rw [hstep]
                apply AddCommand_keeps
                simp [mapGet_mapSet]
              rw [heq, hg] at h1
              exact Option.noConfusion h1
            · intro hnil
              exact absurd hnil (List.cons_ne_nil _ _)

/-- C1 amended, at a concrete input: on a registry that already binds "q", the
call with the arguments "h", "q" fails, and the conclusion holds there. -/
theorem C1_failed_call_keeps_accepted_prefix_witness :
    (AddCommand registryWithQ [some (sampleCommand 1 "h"), some (sampleCommand 2 "q")]).2
      = some "command trigger 'q' already exists" ∧
    ∃ (pre : List Command) (bad : Option Command) (post : List (Option Command)),
      [some (sampleCommand 1 "h"), some (sampleCommand 2 "q")] = pre.map some ++ bad :: post ∧
      AddCommand registryWithQ (pre.map some) =
        ((AddCommand registryWithQ
            [some (sampleCommand 1 "h"), some (sampleCommand 2 "q")]).1, none) ∧
      AddCommand (AddCommand registryWithQ
            [some (sampleCommand 1 "h"), some (sampleCommand 2 "q")]).1 [bad] =
        ((AddCommand registryWithQ
            [some (sampleCommand 1 "h"), some (sampleCommand 2 "q")]).1,
          some "command trigger 'q' already exists") ∧
      (∀ k c, mapGet registryWithQ.commands k = some c →
        mapGet (AddCommand registryWithQ
            [some (sampleCommand 1 "h"), some (sampleCommand 2 "q")]).1.commands k = some c) ∧
      (AddCommand registryWithQ [some (sampleCommand 1 "h"), some (sampleCommand 2 "q")]).1 =
        { registryWithQ with commands := (AddCommand registryWithQ
            [some (sampleCommand 1 "h"), some (sampleCommand 2 "q")]).1.commands } ∧
      ((AddCommand registryWithQ
            [some (sampleCommand 1 "h"), some (sampleCommand 2 "q")]).1.commands
          = registryWithQ.commands ↔ pre = []) :=
  ⟨by decide,
    C1_failed_call_keeps_accepted_prefix
      [some (sampleCommand 1 "h"), some (sampleCommand 2 "q")] registryWithQ
      "command trigger 'q' already exists" (by decide)⟩

/-! ## C2 and C3: the key under which a command is registered -/

theorem runeString_utf8ByteSize_ne_zero (b : Nat) : (runeString b).utf8ByteSize ≠ 0 := by
  have h : (runeString b).utf8ByteSize = (Char.ofNat b).utf8Size := by
    simp [runeString, String.singleton, String.utf8ByteSize, String.utf8ByteSize.go]
  rw [h]
  have := Char.utf8Size_pos (Char.ofNat b)
  omega

/-- A command registered alone is found under the one-character string made
of the first byte of its trigger. -/
theorem AddCommand_single_found (app : Application) (c : Command) (b : Nat)
    (hb : byteAt0 c.trigger = some b) (hok : (AddCommand app [some c]).2 = none) :
    findCommandByTrigger (AddCommand app [some c]).1 (runeString b) = some c := by
  cases hg : mapGet app.commands (runeString b) with
  | some c0 =>
    rw [AddCommand_bound app c [] b hb (by simp [hg])] at hok
    simp at hok
  | none =>
    rw [AddCommand_free app c [] b hb hg]
    simp [AddCommand, findCommandByTrigger, runeString_utf8ByteSize_ne_zero, mapGet_mapSet]

/-- For a trigger that starts with an ASCII character, the registry key is
that character. -/
theorem runeString_leadByte_ascii (ch : Char) (h : ch.toNat < 0x80) :
    runeString (leadByte ch) = String.singleton ch := by
  simp [runeString, leadByte, h]

theorem AddCommand_rejected_head (app : Application) (x : Option Command)
    (rest : List (Option Command)) (h : Rejected app.commands [] x) :
    (AddCommand app (x :: rest)).2.isSome = true := by
  cases x with
  | none => rfl
  | some c =>
    cases hb : byteAt0 c.trigger with
    | none => rw [AddCommand_empty_trigger app c rest hb]; rfl
    | some b =>
      have hk : registryKey c = some (runeString b) := by simp [registryKey, hb]
      simp only [Rejected, hk] at h
      rcases h with h | ⟨c', hc', _⟩
      · rw [AddCommand_bound app c rest b hb h]; rfl
      · simp at hc'

/-- The code of `AddCommand` in closed form: the call returns an error exactly
when some argument is nil, or has an empty trigger, or has a trigger whose
first byte gives a key that is bound in the registry or is the key of an
earlier argument of the call. -/
theorem AddCommand_error_iff (cmds : List (Option Command)) :
    ∀ app : Application,
      (AddCommand app cmds).2.isSome = true ↔
        ∃ pre x post, cmds = pre ++ x :: post ∧ Rejected app.commands pre x := by
  induction cmds with
  | nil =>
    intro app
    constructor
    · intro h; simp [AddCommand] at h
    · rintro ⟨pre, x, post, h, _⟩; simp at h
  | cons y rest ih =>
    intro app
    by_cases hy : Rejected app.commands [] y
    · constructor
      · intro _; exact ⟨[], y, rest, rfl, hy⟩
      · intro _; exact AddCommand_rejected_head app y rest hy
    · -- the head is accepted
      cases y with
      | none => exact absurd trivial hy
      | some c =>
        cases hb : byteAt0 c.trigger with
        | none =>
          have hk : registryKey c = none := by simp [registryKey, hb]
          simp [Rejected, hk] at hy
        | some b =>
          have hk : registryKey c = some (runeString b) := by simp [registryKey, hb]
          have hfree : mapGet app.commands (runeString b) = none := by
            cases hg : mapGet app.commands (runeString b) with
            | none => rfl
            | some c0 => simp [Rejected, hk, hg] at hy
          rw [AddCommand_free app c rest b hb hfree, ih]
          constructor
          · rintro ⟨pre, x, post, hsplit, hrej⟩
            refine ⟨some c :: pre, x, post, by simp [hsplit], ?_⟩
            cases x with
            | none => trivial
            | some cx =>
              cases hkx : registryKey cx with
              | none => simp [Rejected, hkx]
              | some k =>
                simp only [Rejected, hkx, mapGet_mapSet] at hrej ⊢
                rcases hrej with hbound | ⟨c', hc', hk'⟩
                · by_cases hkk : runeString b = k
                  · right; exact ⟨c, List.mem_cons_self _ _, by rw [hk, hkk]⟩
                  · left; simpa [hkk] using hbound
                · right; exact ⟨c', List.mem_cons_of_mem _ hc', hk'⟩
          · rintro ⟨pre, x, post, hsplit, hrej⟩
            cases pre with
            | nil =>
              simp only [List.nil_append, List.cons.injEq] at hsplit
              obtain ⟨hx, _⟩ := hsplit
              subst hx
              exact absurd hrej hy
            | cons z pre' =>
              simp only [List.cons_append, List.cons.injEq] at hsplit
              obtain ⟨hz, hrest⟩ := hsplit
              subst hz
              refine ⟨pre', x, post, hrest, ?_⟩
              cases x with
              | none => trivial
              | some cx =>
                cases hkx : registryKey cx with
                | none => simp [Rejected, hkx]
                | some k =>
                  simp only [Rejected, hkx, mapGet_mapSet] at hrej ⊢
                  rcases hrej with hbound | ⟨c', hc', hk'⟩
                  · left
                    by_cases hkk : runeString b = k
                    · simp [hkk]
                    · simpa [hkk] using hbound
                  · rcases List.mem_cons.mp hc' with hc' | hc'
                    · left
                      have hcc : c' = c := by simpa using hc'
                      subst hcc
                      rw [hk] at hk'
                      have hkk : runeString b = k := by simpa using hk'
                      simp [hkk]
                    · right; exact ⟨c', hc', hk'⟩

/-- After a successful call, every argument is found under its key, and every
binding of the registry was there before the call or is that of an argument
under its key. -/
theorem AddCommand_success_registry (cmds : List (Option Command)) :
    ∀ app : Application, (AddCommand app cmds).2 = none →
      (∀ c, some c ∈ cmds →
        ∃ k, registryKey c = some k ∧ mapGet (AddCommand app cmds).1.commands k = some c) ∧
      (∀ k c, mapGet (AddCommand app cmds).1.commands k = some c →
        mapGet app.commands k = some c ∨ (some c ∈ cmds ∧ registryKey c = some k)) := by
  induction cmds with
  | nil =>
    intro app _
    constructor
    · intro c hc; simp at hc
    · intro k c h; left; simpa [AddCommand] using h
  | cons y rest ih =>
    intro app hok
    cases y with
    | none => simp [AddCommand] at hok
    | some c0 =>
      cases hb : byteAt0 c0.trigger with
      | none => rw [AddCommand_empty_trigger app c0 rest hb] at hok; simp at hok
      | some b =>
        have hk0 : registryKey c0 = some (runeString b) := by simp [registryKey, hb]
        cases hg : mapGet app.commands (runeString b) with
        | some cx =>
          rw [AddCommand_bound app c0 rest b hb (by simp [hg])] at hok; simp at hok
        | none =>
          have hstep := AddCommand_free app c0 rest b hb hg
          rw [hstep] at hok ⊢
          obtain ⟨ih1, ih2⟩ := ih _ hok
          constructor
          · intro c hc
            rcases List.mem_cons.mp hc with hc | hc
            · have hcc : c = c0 := by simpa using hc
              subst hcc
              refine ⟨runeString b, hk0, ?_⟩
              apply AddCommand_keeps
              simp [mapGet_mapSet]
            · exact ih1 c hc
          · intro k c h
            rcases ih2 k c h with h' | ⟨hmem, hkey⟩
            · simp only [mapGet_mapSet] at h'
              by_cases hkk : runeString b = k
              · right
                rw [if_pos hkk] at h'
                have hcc : c0 = c := by simpa using h'
                subst hcc
                exact ⟨List.mem_cons_self _ _, by rw [hk0, hkk]⟩
              · left
                rw [if_neg hkk] at h'
                exact h'
            · right; exact ⟨List.mem_cons_of_mem _ hmem, hkey⟩

/-- C2, evaluated where it fails: on a fresh application the call registering
"é" and then "ë" returns the duplicate-trigger error although the two triggers
start with different characters and neither character is bound; both triggers
start with the byte 0xC3, and the key bound is "Ã". -/
theorem C2_distinct_first_characters_rejected :
    (AddCommand (NewApplication "t") [some (sampleCommand 1 "é"), some (sampleCommand 2 "ë")]).2
        = some "command trigger 'ë' already exists" ∧
      "é".data.head? ≠ "ë".data.head? ∧
      byteAt0 "é" = some 0xC3 ∧ byteAt0 "ë" = some 0xC3 ∧
      mapGet (AddCommand (NewApplication "t") [some (sampleCommand 1 "é")]).1.commands "ë" = none ∧
      (AddCommand (NewApplication "t") [some (sampleCommand 1 "é")]).1.commands
        = [("Ã", sampleCommand 1 "é")] := by
  decide

/-- C3, evaluated where it fails: after the command with trigger "é" is
registered successfully, looking up "é" finds nothing, while looking up "Ã",
which is the first character of no registered trigger, finds the command. -/
theorem C3_non_ascii_trigger_lookup :
    (AddCommand (NewApplication "t") [some (sampleCommand 1 "é")]).2 = none ∧
      findCommandByTrigger (AddCommand (NewApplication "t") [some (sampleCommand 1 "é")]).1 "é"
        = none ∧
      findCommandByTrigger (AddCommand (NewApplication "t") [some (sampleCommand 1 "é")]).1 "Ã"
        = some (sampleCommand 1 "é") ∧
      (sampleCommand 1 "é").trigger.data.head? ≠ "Ã".data.head? := by
  decide

/-! ## C4 and C5: creating a widget -/

/-- C4: with a non-nil drawable, `NewWidget` succeeds exactly when the weight
lies in 1..10, and so does `NewAndAddWidget` with a non-nil command; both then
return a widget.  With a nil drawable both fail for every weight. -/
theorem C4_widget_creation_succeeds_iff_weight_in_range (tui : Backend) (w : World)
    (command : Command) (d : Drawable) (title : String) (weight : Int) :
    (((NewWidget w.heap (some d) title weight).2.toOption.isSome = true) ↔
        (1 ≤ weight ∧ weight ≤ 10)) ∧
      (((NewAndAddWidget tui w (some command) (some d) weight).2.2 = none) ↔
        (1 ≤ weight ∧ weight ≤ 10)) ∧
      (((NewAndAddWidget tui w (some command) (some d) weight).2.1.isSome = true) ↔
        (1 ≤ weight ∧ weight ≤ 10)) ∧
      (NewWidget w.heap none title weight).2 = .error "drawable cannot be nil" ∧
      (NewAndAddWidget tui w (some command) none weight).2
        = (none, some "cannot create widget with nil drawable") := by
  by_cases h : weight < 1 ∨ weight > 10
  · have hn : ¬ (1 ≤ weight ∧ weight ≤ 10) := by omega
    simp [NewWidget, NewAndAddWidget, h, hn, Except.toOption]
  · have hy : 1 ≤ weight ∧ weight ≤ 10 := by omega
    simp [NewWidget, NewAndAddWidget, h, hy, Except.toOption]

theorem deref_append_left (heap : List Widget) (x : Widget) (q : Nat) (h : q < heap.length) :
    deref (heap ++ [x]) q = deref heap q := by
  simp [deref, List.getD, List.getElem?_append_left h]

theorem deref_append_new (heap : List Widget) (x : Widget) :
    deref (heap ++ [x]) heap.length = x := by
  simp [deref, List.getD]

/-- Recalculating and redrawing change neither the widget objects nor any
field of the application other than the text of the main paragraph. -/
theorem redraw_recalculate_frame (tui : Backend) (w : World) :
    (redrawWidgets tui (recalculateWidgetSizes w)).heap = w.heap ∧
      (redrawWidgets tui (recalculateWidgetSizes w)).app =
        { w.app with mainWidget :=
            { w.app.mainWidget with text :=
                (redrawWidgets tui (recalculateWidgetSizes w)).app.mainWidget.text } } := by
  simp [redrawWidgets, recalculateWidgetSizes, refreshMainWidget]

/-- C5: when `NewAndAddWidget` succeeds, the collection is the previous one
with one address appended, the address of a newly allocated widget that is
hidden and carries the requested weight and the title of the command; the
widget objects that existed before are unchanged, and so is every field of the
application other than the collection and the text shown in the main
paragraph.  When it fails, nothing has changed. -/
theorem C5_widget_appended_hidden_or_nothing_changed (tui : Backend) (w : World)
    (command : Option Command) (widget : Option Drawable) (weight : Int) :
    ((NewAndAddWidget tui w command widget weight).2.2 = none →
      ∃ (c : Command) (d : Drawable), command = some c ∧ widget = some d ∧
        (NewAndAddWidget tui w command widget weight).2.1 = some w.heap.length ∧
        (NewAndAddWidget tui w command widget weight).1.app.widgets
          = w.app.widgets ++ [w.heap.length] ∧
        (NewAndAddWidget tui w command widget weight).1.heap
          = w.heap ++ [{ drawable := d, title := c.title, weight := weight, visible := false }] ∧
        deref (NewAndAddWidget tui w command widget weight).1.heap w.heap.length
          = { drawable := d, title := c.title, weight := weight, visible := false } ∧
        (∀ q, q < w.heap.length →
          deref (NewAndAddWidget tui w command widget weight).1.heap q = deref w.heap q) ∧
        (NewAndAddWidget tui w command widget weight).1.app =
          { w.app with
            widgets := w.app.widgets ++ [w.heap.length]
            mainWidget := { w.app.mainWidget with text :=
              (NewAndAddWidget tui w command widget weight).1.app.mainWidget.text } }) ∧
    ((NewAndAddWidget tui w command widget weight).2.2 ≠ none →
      (NewAndAddWidget tui w command widget weight).1 = w ∧
      (NewAndAddWidget tui w command widget weight).2.1 = none) := by
  cases command with
  | none => simp [NewAndAddWidget]
  | some c =>
    cases widget with
    | none => simp [NewAndAddWidget]
    | some d =>
      by_cases h : weight < 1 ∨ weight > 10
      · simp [NewAndAddWidget, NewWidget, h]
      · have hnew : NewAndAddWidget tui w (some c) (some d) weight =
            (redrawWidgets tui (recalculateWidgetSizes
              { w with
                heap := w.heap ++ [{ drawable := d, title := c.title, weight := weight,
                                     visible := false }]
                app := { w.app with widgets := w.app.widgets ++ [w.heap.length] } }),
              some w.heap.length, none) := by
          simp [NewAndAddWidget, NewWidget, h]
        rw [hnew]
        obtain ⟨hheap, happ⟩ := redraw_recalculate_frame tui
          { w with
            heap := w.heap ++ [{ drawable := d, title := c.title, weight := weight,
                                 visible := false }]
            app := { w.app with widgets := w.app.widgets ++ [w.heap.length] } }
        refine ⟨fun _ => ⟨c, d, rfl, rfl, rfl, ?_, hheap, ?_, ?_, ?_⟩, fun hne => absurd rfl hne⟩
        · rw [happ]
        · simp only [hheap]; exact deref_append_new _ _
        · intro q hq
          simp only [hheap]; exact deref_append_left _ _ q hq
        · exact happ

/-- C5 at concrete inputs: on the empty world, weight 4 succeeds and weight 11
fails. -/
theorem C5_widget_appended_hidden_or_nothing_changed_witness :
    ((NewAndAddWidget sampleBackend emptyWorld (some (sampleCommand 1 "h")) (some 7) 4).2.2 = none ∧
      (∃ (c : Command) (d : Drawable), some (sampleCommand 1 "h") = some c ∧ some 7 = some d ∧
        (NewAndAddWidget sampleBackend emptyWorld (some (sampleCommand 1 "h")) (some 7) 4).2.1 = some emptyWorld.heap.length ∧
        (NewAndAddWidget sampleBackend emptyWorld (some (sampleCommand 1 "h")) (some 7) 4).1.app.widgets
          = emptyWorld.app.widgets ++ [emptyWorld.heap.length] ∧
        (NewAndAddWidget sampleBackend emptyWorld (some (sampleCommand 1 "h")) (some 7) 4).1.heap
          = emptyWorld.heap ++ [{ drawable := d, title := c.title, weight := 4, visible := false }] ∧
        deref (NewAndAddWidget sampleBackend emptyWorld (some (sampleCommand 1 "h")) (some 7) 4).1.heap emptyWorld.heap.length
          = { drawable := d, title := c.title, weight := 4, visible := false } ∧
        (∀ q, q < emptyWorld.heap.length →
          deref (NewAndAddWidget sampleBackend emptyWorld (some (sampleCommand 1 "h")) (some 7) 4).1.heap q = deref emptyWorld.heap q) ∧
        (NewAndAddWidget sampleBackend emptyWorld (some (sampleCommand 1 "h")) (some 7) 4).1.app =
          { emptyWorld.app with
            widgets := emptyWorld.app.widgets ++ [emptyWorld.heap.length]
            mainWidget := { emptyWorld.app.mainWidget with text :=
              (NewAndAddWidget sampleBackend emptyWorld (some (sampleCommand 1 "h")) (some 7) 4).1.app.mainWidget.text } })) ∧
    ((NewAndAddWidget sampleBackend emptyWorld (some (sampleCommand 1 "h")) (some 7) 11).2.2 ≠ none ∧
      ((NewAndAddWidget sampleBackend emptyWorld (some (sampleCommand 1 "h")) (some 7) 11).1 = emptyWorld ∧
      (NewAndAddWidget sampleBackend emptyWorld (some (sampleCommand 1 "h")) (some 7) 11).2.1 = none)) :=
  ⟨⟨by decide,
      (C5_widget_appended_hidden_or_nothing_changed sampleBackend emptyWorld
        (some (sampleCommand 1 "h")) (some 7) 4).1 (by decide)⟩,
    ⟨by decide,
      (C5_widget_appended_hidden_or_nothing_changed sampleBackend emptyWorld
        (some (sampleCommand 1 "h")) (some 7) 11).2 (by decide)⟩⟩

/-! ## C6 and C7: the layout -/

theorem collectVisible_eq (heap : List Widget) (ws : List Nat) :
    ∀ (vis : List Nat) (t : Int),
      collectVisible heap ws (vis, t) =
        (vis ++ visibleWidgets heap ws,
          t + ((visibleWidgets heap ws).map (fun p => (deref heap p).weight)).sum) := by
  induction ws with
  | nil => intro vis t; simp [collectVisible, visibleWidgets]
  | cons p rest ih =>
    intro vis t
    by_cases hv : (deref heap p).visible = true
    · simp only [collectVisible, hv, if_true, ih]
      simp [visibleWidgets, List.filter, hv, add_assoc]
    · simp only [collectVisible, hv, ih]
      simp [visibleWidgets, List.filter, hv]

theorem foldl_append_singleton {α β : Type} (f : α → β) (l : List α) :
    ∀ init : List β, l.foldl (fun rows p => rows ++ [f p]) init = init ++ l.map f := by
  induction l with
  | nil => intro init; simp
  | cons a rest ih => intro init; simp [ih]

/-- The rows computed by the two loops of `recalculateWidgetSizes` are the rows
the specification describes. -/
theorem layoutRows_eq_specRows (heap : List Widget) (ws : List Nat) :
    layoutRows heap ws = specRows heap ws := by
  unfold layoutRows
  simp only [collectVisible_eq, foldl_append_singleton]
  simp [specRows, totalWeight, widgetRow]

/-- C6: `recalculateWidgetSizes` hands to the grid the row 6/T of the main
paragraph followed by the rows weight/T of the visible widgets in collection
order, where T is 6 plus the sum of the weights of the visible widgets; the
list has one row more than there are visible widgets; nothing else than the
three termui calls happens. -/
theorem C6_rows_are_main_then_visible_widgets (w : World) :
    layoutRows w.heap w.app.widgets =
        { num := 6, den := totalWeight w.heap w.app.widgets, entry := .mainWidget } ::
          (w.app.widgets.filter (fun p => (deref w.heap p).visible)).map
            (fun p => { num := (deref w.heap p).weight,
                        den := totalWeight w.heap w.app.widgets,
                        entry := .drawable (deref w.heap p).drawable }) ∧
      totalWeight w.heap w.app.widgets =
        6 + ((w.app.widgets.filter (fun p => (deref w.heap p).visible)).map
              (fun p => (deref w.heap p).weight)).sum ∧
      (layoutRows w.heap w.app.widgets).length =
        1 + w.app.widgets.countP (fun p => (deref w.heap p).visible) ∧
      recalculateWidgetSizes w =
        { w with ui := w.ui ++
            [ .gridSetRect 0 0 w.app.size.1 (w.app.size.2 - 3),
              .gridSet (layoutRows w.heap w.app.widgets),
              .cmdSetRect 0 (w.app.size.2 - 3) w.app.size.1 w.app.size.2 ] } := by
  refine ⟨?_, ?_, ?_, rfl⟩
  · rw [layoutRows_eq_specRows]; rfl
  · rfl
  · rw [layoutRows_eq_specRows]
    simp [specRows, visibleWidgets, List.countP_eq_length_filter, Nat.add_comm]

theorem sum_map_div (l : List Nat) (a : Nat → Int) (t : ℚ) :
    (l.map (fun p => ((a p : Int) : ℚ) / t)).sum = (((l.map a).sum : Int) : ℚ) / t := by
  induction l with
  | nil => simp
  | cons p rest ih => simp [ih, add_div]

theorem visible_weights_nonneg (heap : List Widget) (ws : List Nat)
    (h : ∀ p ∈ ws, 1 ≤ (deref heap p).weight ∧ (deref heap p).weight ≤ 10) :
    0 ≤ ((visibleWidgets heap ws).map (fun p => (deref heap p).weight)).sum := by
  apply List.sum_nonneg
  intro x hx
  obtain ⟨p, hp, rfl⟩ := List.mem_map.mp hx
  have hmem : p ∈ ws := (List.mem_filter.mp hp).1
  have := (h p hmem).1
  omega

/-- The fractions of the rows: 6/T for the main paragraph, then weight/T for
each visible widget in collection order. -/
theorem layoutRows_fractions (heap : List Widget) (ws : List Nat) :
    (layoutRows heap ws).map Row.fraction =
      ((6 : ℚ) / ((totalWeight heap ws : Int) : ℚ)) ::
        (ws.filter (fun p => (deref heap p).visible)).map
          (fun p => (((deref heap p).weight : Int) : ℚ) / ((totalWeight heap ws : Int) : ℚ)) := by
  rw [layoutRows_eq_specRows]
  simp only [specRows, List.map_cons, List.map_map]
  have hmap : (Row.fraction ∘ widgetRow heap (totalWeight heap ws)) =
      (fun p => (((deref heap p).weight : Int) : ℚ) / ((totalWeight heap ws : Int) : ℚ)) := by
    funext p; rfl
  rw [hmap]
  have hmain : Row.fraction
      { num := mainWidgetWeight, den := totalWeight heap ws, entry := .mainWidget }
      = (6 : ℚ) / ((totalWeight heap ws : Int) : ℚ) := by
    simp [Row.fraction, mainWidgetWeight]
  rw [hmain]
  rfl

/-- C7: when every widget of the collection has a weight in 1..10, the rows
computed by `recalculateWidgetSizes` are the row 6/T of the main paragraph
followed by the row weight/T of each visible widget, in collection order,
where T is 6 plus the sum of the weights of the visible widgets; T is at least
6, hence never zero; and these fractions, as exact rationals, sum to 1. -/
theorem C7_fractions_sum_to_one (w : World)
    (h : ∀ p ∈ w.app.widgets, 1 ≤ (deref w.heap p).weight ∧ (deref w.heap p).weight ≤ 10) :
    layoutRows w.heap w.app.widgets =
        { num := 6, den := totalWeight w.heap w.app.widgets, entry := .mainWidget } ::
          (w.app.widgets.filter (fun p => (deref w.heap p).visible)).map
            (fun p => { num := (deref w.heap p).weight,
                        den := totalWeight w.heap w.app.widgets,
                        entry := .drawable (deref w.heap p).drawable }) ∧
      (layoutRows w.heap w.app.widgets).map Row.fraction =
        ((6 : ℚ) / ((totalWeight w.heap w.app.widgets : Int) : ℚ)) ::
          (w.app.widgets.filter (fun p => (deref w.heap p).visible)).map
            (fun p => (((deref w.heap p).weight : Int) : ℚ) /
              ((totalWeight w.heap w.app.widgets : Int) : ℚ)) ∧
      totalWeight w.heap w.app.widgets =
        6 + ((w.app.widgets.filter (fun p => (deref w.heap p).visible)).map
              (fun p => (deref w.heap p).weight)).sum ∧
      ((layoutRows w.heap w.app.widgets).map Row.fraction).sum = 1 ∧
      6 ≤ totalWeight w.heap w.app.widgets ∧
      totalWeight w.heap w.app.widgets ≠ 0 ∧
      (∀ r ∈ layoutRows w.heap w.app.widgets, r.den = totalWeight w.heap w.app.widgets) := by
  have hnn := visible_weights_nonneg w.heap w.app.widgets h
  have h6 : 6 ≤ totalWeight w.heap w.app.widgets := by
    unfold totalWeight mainWidgetWeight; omega
  have hne : totalWeight w.heap w.app.widgets ≠ 0 := by omega
  have hq : ((totalWeight w.heap w.app.widgets : Int) : ℚ) ≠ 0 := by exact_mod_cast hne
  refine ⟨?_, layoutRows_fractions w.heap w.app.widgets, rfl, ?_, h6, hne, ?_⟩
  · rw [layoutRows_eq_specRows]; rfl
  · rw [layoutRows_eq_specRows]
    simp only [specRows, List.map_cons, List.map_map, List.sum_cons]
    have hmap : (Row.fraction ∘ widgetRow w.heap (totalWeight w.heap w.app.widgets)) =
        (fun p => (((deref w.heap p).weight : Int) : ℚ) /
          ((totalWeight w.heap w.app.widgets : Int) : ℚ)) := by
      funext p; rfl
    rw [hmap, sum_map_div]
    simp only [Row.fraction]
    rw [← add_div]
    have htot : ((mainWidgetWeight : Int) : ℚ) +
        ((((visibleWidgets w.heap w.app.widgets).map
            (fun p => (deref w.heap p).weight)).sum : Int) : ℚ)
        = ((totalWeight w.heap w.app.widgets : Int) : ℚ) := by
      unfold totalWeight; push_cast; rfl
    rw [htot]
    exact div_self hq
  · intro r hr
    rw [layoutRows_eq_specRows] at hr
    simp only [specRows, List.mem_cons, List.mem_map] at hr
    rcases hr with rfl | ⟨p, _, rfl⟩
    · rfl
    · rfl

/-- C7 at a concrete input: two shown widgets of weights 4 and 10; the
fractions are 6/20, 4/20 and 10/20. -/
theorem C7_fractions_sum_to_one_witness :
    (∀ p ∈ twoShownWorld.app.widgets,
        1 ≤ (deref twoShownWorld.heap p).weight ∧ (deref twoShownWorld.heap p).weight ≤ 10) ∧
    (layoutRows twoShownWorld.heap twoShownWorld.app.widgets =
        { num := 6, den := totalWeight twoShownWorld.heap twoShownWorld.app.widgets, entry := .mainWidget } ::
          (twoShownWorld.app.widgets.filter (fun p => (deref twoShownWorld.heap p).visible)).map
            (fun p => { num := (deref twoShownWorld.heap p).weight,
                        den := totalWeight twoShownWorld.heap twoShownWorld.app.widgets,
                        entry := .drawable (deref twoShownWorld.heap p).drawable }) ∧
      (layoutRows twoShownWorld.heap twoShownWorld.app.widgets).map Row.fraction =
        ((6 : ℚ) / ((totalWeight twoShownWorld.heap twoShownWorld.app.widgets : Int) : ℚ)) ::
          (twoShownWorld.app.widgets.filter (fun p => (deref twoShownWorld.heap p).visible)).map
            (fun p => (((deref twoShownWorld.heap p).weight : Int) : ℚ) /
              ((totalWeight twoShownWorld.heap twoShownWorld.app.widgets : Int) : ℚ)) ∧
      totalWeight twoShownWorld.heap twoShownWorld.app.widgets =
        6 + ((twoShownWorld.app.widgets.filter (fun p => (deref twoShownWorld.heap p).visible)).map
              (fun p => (deref twoShownWorld.heap p).weight)).sum ∧
      ((layoutRows twoShownWorld.heap twoShownWorld.app.widgets).map Row.fraction).sum = 1 ∧
      6 ≤ totalWeight twoShownWorld.heap twoShownWorld.app.widgets ∧
      totalWeight twoShownWorld.heap twoShownWorld.app.widgets ≠ 0 ∧
      (∀ r ∈ layoutRows twoShownWorld.heap twoShownWorld.app.widgets, r.den = totalWeight twoShownWorld.heap twoShownWorld.app.widgets)) ∧
    layoutRows twoShownWorld.heap twoShownWorld.app.widgets =
      [ { num := 6, den := 20, entry := .mainWidget },
        { num := 4, den := 20, entry := .drawable 7 },
        { num := 10, den := 20, entry := .drawable 8 } ] :=
  ⟨by decide, C7_fractions_sum_to_one twoShownWorld (by decide), by decide⟩

/-! ## C8 and C9: showing and hiding -/

theorem deref_set (heap : List Widget) (p q : Nat) (x : Widget) (hp : p < heap.length) :
    deref (heap.set p x) q = if q = p then x else deref heap q := by
  by_cases h : q = p
  · subst h
    simp [deref, hp]
  · have h' : p ≠ q := fun e => h e.symm
    simp [deref, h, List.getElem?_set_ne h']

theorem visible_lt_length (heap : List Widget) (p : Nat) (h : (deref heap p).visible = true) :
    p < heap.length := by
  by_contra hge
  have hlen : heap.length ≤ p := Nat.le_of_not_lt hge
  have hnone : heap[p]? = none := List.getElem?_eq_none hlen
  simp [deref, hnone] at h

theorem set_deref_self (heap : List Widget) (p : Nat) : heap.set p (deref heap p) = heap := by
  by_cases hp : p < heap.length
  · apply List.ext_getElem?
    intro n
    by_cases hn : p = n
    · subst hn
      simp [deref, hp]
    · simp [List.getElem?_set_ne hn]
  · exact List.set_eq_of_length_le (Nat.le_of_not_lt hp)

/-- The heap after the visibility flag of the widget at `p` is written. -/
theorem deref_setVisible (heap : List Widget) (p q : Nat) (b : Bool) (hp : p < heap.length) :
    deref (heap.set p { deref heap p with visible := b }) q =
      if q = p then { deref heap p with visible := b } else deref heap q :=
  deref_set heap p q _ hp

theorem visibleWidgets_hide (heap : List Widget) (ws : List Nat) (p : Nat)
    (hp : p < heap.length) (hnd : ws.Nodup) :
    visibleWidgets (heap.set p { deref heap p with visible := false }) ws =
      (visibleWidgets heap ws).erase p := by
  have hnd' : (visibleWidgets heap ws).Nodup := hnd.filter _
  rw [List.Nodup.erase_eq_filter hnd' p]
  unfold visibleWidgets
  rw [List.filter_filter]
  apply List.filter_congr
  intro q _
  rw [deref_setVisible heap p q false hp]
  by_cases h : q = p
  · simp [h]
  · simp [h]

theorem widgetRow_hide (heap : List Widget) (ws : List Nat) (p : Nat) (t : Int)
    (hp : p < heap.length) (hnd : ws.Nodup) :
    ((visibleWidgets heap ws).erase p).map
        (widgetRow (heap.set p { deref heap p with visible := false }) t) =
      ((visibleWidgets heap ws).erase p).map (widgetRow heap t) := by
  have hnd' : (visibleWidgets heap ws).Nodup := hnd.filter _
  apply List.map_congr_left
  intro q hq
  have hne : q ≠ p := by
    intro e
    subst e
    exact (List.Nodup.not_mem_erase hnd') hq
  simp [widgetRow, deref_setVisible heap p q false hp, hne]

theorem totalWeight_hide (heap : List Widget) (ws : List Nat) (p : Nat)
    (hmem : p ∈ ws) (hnd : ws.Nodup) (hvis : (deref heap p).visible = true) :
    totalWeight (heap.set p { deref heap p with visible := false }) ws =
      totalWeight heap ws - (deref heap p).weight := by
  have hp := visible_lt_length heap p hvis
  have hnd' : (visibleWidgets heap ws).Nodup := hnd.filter _
  have hpv : p ∈ visibleWidgets heap ws := by
    simp [visibleWidgets, hmem, hvis]
  unfold totalWeight
  rw [visibleWidgets_hide heap ws p hp hnd]
  have hcongr : ((visibleWidgets heap ws).erase p).map
        (fun q => (deref (heap.set p { deref heap p with visible := false }) q).weight) =
      ((visibleWidgets heap ws).erase p).map (fun q => (deref heap q).weight) := by
    apply List.map_congr_left
    intro q hq
    have hne : q ≠ p := by
      intro e
      subst e
      exact (List.Nodup.not_mem_erase hnd') hq
    simp [deref_setVisible heap p q false hp, hne]
  rw [hcongr]
  have hsum : (deref heap p).weight +
      (((visibleWidgets heap ws).erase p).map (fun q => (deref heap q).weight)).sum =
      ((visibleWidgets heap ws).map (fun q => (deref heap q).weight)).sum :=
    List.sum_map_erase (fun q => (deref heap q).weight) hpv
  omega

/-- The rows after the visible widget at `p` is hidden: the row of `p` is gone
and every remaining row is taken over the total less the weight of `p`. -/
theorem layoutRows_hide (heap : List Widget) (ws : List Nat) (p : Nat)
    (hmem : p ∈ ws) (hnd : ws.Nodup) (hvis : (deref heap p).visible = true) :
    layoutRows (heap.set p { deref heap p with visible := false }) ws =
      { num := 6, den := totalWeight heap ws - (deref heap p).weight, entry := .mainWidget } ::
        ((visibleWidgets heap ws).erase p).map
          (widgetRow heap (totalWeight heap ws - (deref heap p).weight)) := by
  have hp := visible_lt_length heap p hvis
  rw [layoutRows_eq_specRows]
  unfold specRows
  rw [totalWeight_hide heap ws p hmem hnd hvis, visibleWidgets_hide heap ws p hp hnd,
    widgetRow_hide heap ws p _ hp hnd]
  rfl

/-- Hiding the visible widget at `p` and showing it again gives back the heap. -/
theorem set_hide_show (heap : List Widget) (p : Nat) (hvis : (deref heap p).visible = true) :
    (heap.set p { deref heap p with visible := false }).set p
        { deref (heap.set p { deref heap p with visible := false }) p with visible := true }
      = heap := by
  have hp := visible_lt_length heap p hvis
  rw [List.set_set, deref_setVisible heap p p false hp]
  have hx : ({ ({ deref heap p with visible := false } : Widget) with visible := true } : Widget)
      = deref heap p := by
    cases hd : deref heap p with
    | mk d t wt v =>
      rw [hd] at hvis
      simp at hvis
      simp [hvis]
  simp only [if_true]
  rw [hx]
  exact set_deref_self heap p

/-- The termui calls of one recalculation followed by one redraw. -/
theorem redraw_recalculate_ui (tui : Backend) (w : World) :
    (redrawWidgets tui (recalculateWidgetSizes w)).ui =
      w.ui ++
        [ .gridSetRect 0 0 w.app.size.1 (w.app.size.2 - 3),
          .gridSet (layoutRows w.heap w.app.widgets),
          .cmdSetRect 0 (w.app.size.2 - 3) w.app.size.1 w.app.size.2,
          .clear, .renderGridAndCmd, .renderMain ] := by
  simp [redrawWidgets, recalculateWidgetSizes, refreshMainWidget]

theorem HideWidget_visible (tui : Backend) (w : World) (p : Nat)
    (hvis : (deref w.heap p).visible = true) :
    HideWidget tui w (some p) =
      (redrawWidgets tui (recalculateWidgetSizes
        { w with heap := w.heap.set p { deref w.heap p with visible := false } }), none) := by
  simp [HideWidget, hvis]

theorem ShowWidget_hidden (tui : Backend) (w : World) (p : Nat)
    (hvis : (deref w.heap p).visible = false) :
    ShowWidget tui w (some p) =
      (redrawWidgets tui (recalculateWidgetSizes
        { w with heap := w.heap.set p { deref w.heap p with visible := true } }), none) := by
  simp [ShowWidget, hvis]

/-- C8: let the widget at `p` be in the collection and visible, in a
collection without repeated addresses.  `HideWidget` recomputes the layout and
hands to the grid the original rows without the row of `p`, each over the
original total T less the weight of `p`.  A following `ShowWidget` restores the
visibility flags (the whole heap) and hands the original rows to the grid. -/
theorem C8_hide_then_show_restores_layout (tui : Backend) (w : World) (p : Nat)
    (hmem : p ∈ w.app.widgets) (hnd : w.app.widgets.Nodup)
    (hvis : (deref w.heap p).visible = true) :
    layoutRows w.heap w.app.widgets =
        { num := 6, den := totalWeight w.heap w.app.widgets, entry := .mainWidget } ::
          (visibleWidgets w.heap w.app.widgets).map
            (widgetRow w.heap (totalWeight w.heap w.app.widgets)) ∧
      p ∈ visibleWidgets w.heap w.app.widgets ∧
      (HideWidget tui w (some p)).2 = none ∧
      (HideWidget tui w (some p)).1.heap =
        w.heap.set p { deref w.heap p with visible := false } ∧
      (HideWidget tui w (some p)).1.app.widgets = w.app.widgets ∧
      (HideWidget tui w (some p)).1.ui =
        w.ui ++
          [ .gridSetRect 0 0 w.app.size.1 (w.app.size.2 - 3),
            .gridSet
              ({ num := 6, den := totalWeight w.heap w.app.widgets - (deref w.heap p).weight,
                 entry := .mainWidget } ::
                ((visibleWidgets w.heap w.app.widgets).erase p).map
                  (widgetRow w.heap
                    (totalWeight w.heap w.app.widgets - (deref w.heap p).weight))),
            .cmdSetRect 0 (w.app.size.2 - 3) w.app.size.1 w.app.size.2,
            .clear, .renderGridAndCmd, .renderMain ] ∧
      (ShowWidget tui (HideWidget tui w (some p)).1 (some p)).2 = none ∧
      (ShowWidget tui (HideWidget tui w (some p)).1 (some p)).1.heap = w.heap ∧
      (ShowWidget tui (HideWidget tui w (some p)).1 (some p)).1.app.widgets = w.app.widgets ∧
      (ShowWidget tui (HideWidget tui w (some p)).1 (some p)).1.ui =
        (HideWidget tui w (some p)).1.ui ++
          [ .gridSetRect 0 0 w.app.size.1 (w.app.size.2 - 3),
            .gridSet (layoutRows w.heap w.app.widgets),
            .cmdSetRect 0 (w.app.size.2 - 3) w.app.size.1 w.app.size.2,
            .clear, .renderGridAndCmd, .renderMain ] ∧
      layoutRows (HideWidget tui w (some p)).1.heap (HideWidget tui w (some p)).1.app.widgets =
        { num := 6, den := totalWeight w.heap w.app.widgets - (deref w.heap p).weight,
          entry := .mainWidget } ::
          ((visibleWidgets w.heap w.app.widgets).erase p).map
            (widgetRow w.heap (totalWeight w.heap w.app.widgets - (deref w.heap p).weight)) ∧
      layoutRows (ShowWidget tui (HideWidget tui w (some p)).1 (some p)).1.heap
          (ShowWidget tui (HideWidget tui w (some p)).1 (some p)).1.app.widgets =
        layoutRows w.heap w.app.widgets := by
  have hp := visible_lt_length w.heap p hvis
  have hhide := HideWidget_visible tui w p hvis
  have hfr := redraw_recalculate_frame tui
    { w with heap := w.heap.set p { deref w.heap p with visible := false } }
  have hui := redraw_recalculate_ui tui
    { w with heap := w.heap.set p { deref w.heap p with visible := false } }
  have hheap1 : (HideWidget tui w (some p)).1.heap =
      w.heap.set p { deref w.heap p with visible := false } := by
    rw [hhide]; exact hfr.1
  have happ1 : (HideWidget tui w (some p)).1.app.widgets = w.app.widgets := by
    rw [hhide]; simp only; rw [hfr.2]
  have hsize1 : (HideWidget tui w (some p)).1.app.size = w.app.size := by
    rw [hhide]; simp only; rw [hfr.2]
  have hhid : (deref (HideWidget tui w (some p)).1.heap p).visible = false := by
    rw [hheap1, deref_setVisible w.heap p p false hp]; simp
  have hshow := ShowWidget_hidden tui (HideWidget tui w (some p)).1 p hhid
  have hback : (HideWidget tui w (some p)).1.heap.set p
      { deref (HideWidget tui w (some p)).1.heap p with visible := true } = w.heap := by
    rw [hheap1]; exact set_hide_show w.heap p hvis
  have hfr2 := redraw_recalculate_frame tui
    { (HideWidget tui w (some p)).1 with
      heap := (HideWidget tui w (some p)).1.heap.set p
        { deref (HideWidget tui w (some p)).1.heap p with visible := true } }
  have hui2 := redraw_recalculate_ui tui
    { (HideWidget tui w (some p)).1 with
      heap := (HideWidget tui w (some p)).1.heap.set p
        { deref (HideWidget tui w (some p)).1.heap p with visible := true } }
  have hheap2 : (ShowWidget tui (HideWidget tui w (some p)).1 (some p)).1.heap = w.heap := by
    rw [hshow]; simp only; rw [hfr2.1]; exact hback
  have happ2 : (ShowWidget tui (HideWidget tui w (some p)).1 (some p)).1.app.widgets
      = w.app.widgets := by
    rw [hshow]; simp only; rw [hfr2.2]; exact happ1
  refine ⟨?_, ?_, ?_, hheap1, happ1, ?_, ?_, hheap2, happ2, ?_, ?_, ?_⟩
  · rw [layoutRows_eq_specRows]; rfl
  · simp [visibleWidgets, hmem, hvis]
  · rw [hhide]
  · rw [hhide]; simp only; rw [hui]
    simp only [layoutRows_hide w.heap w.app.widgets p hmem hnd hvis]
  · rw [hshow]
  · rw [hshow]; simp only; rw [hui2]
    simp only [hback, happ1, hsize1]
  · rw [hheap1, happ1]; exact layoutRows_hide w.heap w.app.widgets p hmem hnd hvis
  · rw [hheap2, happ2]

/-- C8 at a concrete input: the first of two shown widgets is hidden and shown
again. -/
theorem C8_hide_then_show_restores_layout_witness :
    (0 ∈ twoShownWorld.app.widgets ∧ twoShownWorld.app.widgets.Nodup ∧
      (deref twoShownWorld.heap 0).visible = true) ∧
    (layoutRows twoShownWorld.heap twoShownWorld.app.widgets =
        { num := 6, den := totalWeight twoShownWorld.heap twoShownWorld.app.widgets, entry := .mainWidget } ::
          (visibleWidgets twoShownWorld.heap twoShownWorld.app.widgets).map
            (widgetRow twoShownWorld.heap (totalWeight twoShownWorld.heap twoShownWorld.app.widgets)) ∧
      0 ∈ visibleWidgets twoShownWorld.heap twoShownWorld.app.widgets ∧
      (HideWidget sampleBackend twoShownWorld (some 0)).2 = none ∧
      (HideWidget sampleBackend twoShownWorld (some 0)).1.heap =
        twoShownWorld.heap.set 0 { deref twoShownWorld.heap 0 with visible := false } ∧
      (HideWidget sampleBackend twoShownWorld (some 0)).1.app.widgets = twoShownWorld.app.widgets ∧
      (HideWidget sampleBackend twoShownWorld (some 0)).1.ui =
        twoShownWorld.ui ++
          [ .gridSetRect 0 0 twoShownWorld.app.size.1 (twoShownWorld.app.size.2 - 3),
            .gridSet
              ({ num := 6, den := totalWeight twoShownWorld.heap twoShownWorld.app.widgets - (deref twoShownWorld.heap 0).weight,
                 entry := .mainWidget } ::
                ((visibleWidgets twoShownWorld.heap twoShownWorld.app.widgets).erase 0).map
                  (widgetRow twoShownWorld.heap
                    (totalWeight twoShownWorld.heap twoShownWorld.app.widgets - (deref twoShownWorld.heap 0).weight))),
            .cmdSetRect 0 (twoShownWorld.app.size.2 - 3) twoShownWorld.app.size.1 twoShownWorld.app.size.2,
            .clear, .renderGridAndCmd, .renderMain ] ∧
      (ShowWidget sampleBackend (HideWidget sampleBackend twoShownWorld (some 0)).1 (some 0)).2 = none ∧
      (ShowWidget sampleBackend (HideWidget sampleBackend twoShownWorld (some 0)).1 (some 0)).1.heap = twoShownWorld.heap ∧
      (ShowWidget sampleBackend (HideWidget sampleBackend twoShownWorld (some 0)).1 (some 0)).1.app.widgets = twoShownWorld.app.widgets ∧
      (ShowWidget sampleBackend (HideWidget sampleBackend twoShownWorld (some 0)).1 (some 0)).1.ui =
        (HideWidget sampleBackend twoShownWorld (some 0)).1.ui ++
          [ .gridSetRect 0 0 twoShownWorld.app.size.1 (twoShownWorld.app.size.2 - 3),
            .gridSet (layoutRows twoShownWorld.heap twoShownWorld.app.widgets),
            .cmdSetRect 0 (twoShownWorld.app.size.2 - 3) twoShownWorld.app.size.1 twoShownWorld.app.size.2,
            .clear, .renderGridAndCmd, .renderMain ] ∧
      layoutRows (HideWidget sampleBackend twoShownWorld (some 0)).1.heap (HideWidget sampleBackend twoShownWorld (some 0)).1.app.widgets =
        { num := 6, den := totalWeight twoShownWorld.heap twoShownWorld.app.widgets - (deref twoShownWorld.heap 0).weight,
          entry := .mainWidget } ::
          ((visibleWidgets twoShownWorld.heap twoShownWorld.app.widgets).erase 0).map
            (widgetRow twoShownWorld.heap (totalWeight twoShownWorld.heap twoShownWorld.app.widgets - (deref twoShownWorld.heap 0).weight)) ∧
      layoutRows (ShowWidget sampleBackend (HideWidget sampleBackend twoShownWorld (some 0)).1 (some 0)).1.heap
          (ShowWidget sampleBackend (HideWidget sampleBackend twoShownWorld (some 0)).1 (some 0)).1.app.widgets =
        layoutRows twoShownWorld.heap twoShownWorld.app.widgets) :=
  ⟨by decide,
    C8_hide_then_show_restores_layout sampleBackend twoShownWorld 0
      (by decide) (by decide) (by decide)⟩

theorem recalcCount_append_redraw (ui : List UiCall) (x0 y0 x1 y1 a0 b0 a1 b1 : Int)
    (rows : List Row) :
    recalcCount (ui ++ [ .gridSetRect x0 y0 x1 y1, .gridSet rows, .cmdSetRect a0 b0 a1 b1,
        .clear, .renderGridAndCmd, .renderMain ]) = recalcCount ui + 1 := by
  simp [recalcCount, List.countP_append, List.countP_cons]

/-- The world one recalculation and one redraw produce. -/
theorem redraw_recalculate_eq (tui : Backend) (w : World) :
    redrawWidgets tui (recalculateWidgetSizes w) =
      { w with
        app := { w.app with
          mainWidget := { w.app.mainWidget with
            text := displayText w.app.mainText (tui.mainWidgetSizeY (w.ui ++
              [ .gridSetRect 0 0 w.app.size.1 (w.app.size.2 - 3),
                .gridSet (layoutRows w.heap w.app.widgets),
                .cmdSetRect 0 (w.app.size.2 - 3) w.app.size.1 w.app.size.2,
                .clear, .renderGridAndCmd ])) } },
        ui := w.ui ++
          [ .gridSetRect 0 0 w.app.size.1 (w.app.size.2 - 3),
            .gridSet (layoutRows w.heap w.app.widgets),
            .cmdSetRect 0 (w.app.size.2 - 3) w.app.size.1 w.app.size.2,
            .clear, .renderGridAndCmd, .renderMain ] } := by
  simp [redrawWidgets, recalculateWidgetSizes, refreshMainWidget]

theorem ShowWidget_visible (tui : Backend) (w : World) (p : Nat)
    (hvis : (deref w.heap p).visible = true) : ShowWidget tui w (some p) = (w, none) := by
  simp [ShowWidget, hvis]

theorem HideWidget_hidden (tui : Backend) (w : World) (p : Nat)
    (hvis : (deref w.heap p).visible = false) : HideWidget tui w (some p) = (w, none) := by
  simp [HideWidget, hvis]

/-- C9: for a live widget address `p`.  `ShowWidget` on a visible widget and
`HideWidget` on a hidden one return nil and leave the whole world as it is (no
termui call, hence no recalculation).  Otherwise the call returns nil, writes
exactly the visibility flag of the widget at `p`, leaves the collection and
every other field of the application alone except the text shown in the main
paragraph, and recalculates the layout exactly once.  In every case a second
identical call changes nothing. -/
theorem C9_show_and_hide_are_idempotent (tui : Backend) (w : World) (p : Nat)
    (hp : p < w.heap.length) :
    ((deref w.heap p).visible = true → ShowWidget tui w (some p) = (w, none)) ∧
    ((deref w.heap p).visible = false → HideWidget tui w (some p) = (w, none)) ∧
    ((deref w.heap p).visible = false →
      (ShowWidget tui w (some p)).2 = none ∧
      (ShowWidget tui w (some p)).1.heap = w.heap.set p { deref w.heap p with visible := true } ∧
      (∀ q, q ≠ p → deref (ShowWidget tui w (some p)).1.heap q = deref w.heap q) ∧
      (ShowWidget tui w (some p)).1.app =
        { w.app with mainWidget := { w.app.mainWidget with text :=
            (ShowWidget tui w (some p)).1.app.mainWidget.text } } ∧
      recalcCount (ShowWidget tui w (some p)).1.ui = recalcCount w.ui + 1) ∧
    ((deref w.heap p).visible = true →
      (HideWidget tui w (some p)).2 = none ∧
      (HideWidget tui w (some p)).1.heap = w.heap.set p { deref w.heap p with visible := false } ∧
      (∀ q, q ≠ p → deref (HideWidget tui w (some p)).1.heap q = deref w.heap q) ∧
      (HideWidget tui w (some p)).1.app =
        { w.app with mainWidget := { w.app.mainWidget with text :=
            (HideWidget tui w (some p)).1.app.mainWidget.text } } ∧
      recalcCount (HideWidget tui w (some p)).1.ui = recalcCount w.ui + 1) ∧
    ShowWidget tui (ShowWidget tui w (some p)).1 (some p) = ((ShowWidget tui w (some p)).1, none) ∧
    HideWidget tui (HideWidget tui w (some p)).1 (some p) = ((HideWidget tui w (some p)).1, none) := by
  have hshowV : (deref w.heap p).visible = true → ShowWidget tui w (some p) = (w, none) :=
    ShowWidget_visible tui w p
  have hhideH : (deref w.heap p).visible = false → HideWidget tui w (some p) = (w, none) :=
    HideWidget_hidden tui w p
  have hshowH : (deref w.heap p).visible = false →
      (ShowWidget tui w (some p)).2 = none ∧
      (ShowWidget tui w (some p)).1.heap = w.heap.set p { deref w.heap p with visible := true } ∧
      (∀ q, q ≠ p → deref (ShowWidget tui w (some p)).1.heap q = deref w.heap q) ∧
      (ShowWidget tui w (some p)).1.app =
        { w.app with mainWidget := { w.app.mainWidget with text :=
            (ShowWidget tui w (some p)).1.app.mainWidget.text } } ∧
      recalcCount (ShowWidget tui w (some p)).1.ui = recalcCount w.ui + 1 := by
    intro hv
    rw [ShowWidget_hidden tui w p hv, redraw_recalculate_eq]
    refine ⟨rfl, rfl, ?_, rfl, ?_⟩
    · intro q hq
      simp only
      rw [deref_setVisible w.heap p q true hp]
      simp [hq]
    · exact recalcCount_append_redraw _ _ _ _ _ _ _ _ _ _
  have hhideV : (deref w.heap p).visible = true →
      (HideWidget tui w (some p)).2 = none ∧
      (HideWidget tui w (some p)).1.heap = w.heap.set p { deref w.heap p with visible := false } ∧
      (∀ q, q ≠ p → deref (HideWidget tui w (some p)).1.heap q = deref w.heap q) ∧
      (HideWidget tui w (some p)).1.app =
        { w.app with mainWidget := { w.app.mainWidget with text :=
            (HideWidget tui w (some p)).1.app.mainWidget.text } } ∧
      recalcCount (HideWidget tui w (some p)).1.ui = recalcCount w.ui + 1 := by
    intro hv
    rw [HideWidget_visible tui w p hv, redraw_recalculate_eq]
    refine ⟨rfl, rfl, ?_, rfl, ?_⟩
    · intro q hq
      simp only
      rw [deref_setVisible w.heap p q false hp]
      simp [hq]
    · exact recalcCount_append_redraw _ _ _ _ _ _ _ _ _ _
  refine ⟨hshowV, hhideH, hshowH, hhideV, ?_, ?_⟩
  · cases hv : (deref w.heap p).visible with
    | true => rw [hshowV hv, hshowV hv]
    | false =>
      have hnow : (deref (ShowWidget tui w (some p)).1.heap p).visible = true := by
        rw [(hshowH hv).2.1, deref_setVisible w.heap p p true hp]; simp
      exact ShowWidget_visible tui _ p hnow
  · cases hv : (deref w.heap p).visible with
    | false => rw [hhideH hv, hhideH hv]
    | true =>
      have hnow : (deref (HideWidget tui w (some p)).1.heap p).visible = false := by
        rw [(hhideV hv).2.1, deref_setVisible w.heap p p false hp]; simp
      exact HideWidget_hidden tui _ p hnow

/-- C9 at a concrete input: the first of two shown widgets; showing it is a
no-op, hiding it recalculates once. -/
theorem C9_show_and_hide_are_idempotent_witness :
    0 < twoShownWorld.heap.length ∧
    (((deref twoShownWorld.heap 0).visible = true → ShowWidget sampleBackend twoShownWorld (some 0) = (twoShownWorld, none)) ∧
    ((deref twoShownWorld.heap 0).visible = false → HideWidget sampleBackend twoShownWorld (some 0) = (twoShownWorld, none)) ∧
    ((deref twoShownWorld.heap 0).visible = false →
      (ShowWidget sampleBackend twoShownWorld (some 0)).2 = none ∧
      (ShowWidget sampleBackend twoShownWorld (some 0)).1.heap = twoShownWorld.heap.set 0 { deref twoShownWorld.heap 0 with visible := true } ∧
      (∀ q, q ≠ 0 → deref (ShowWidget sampleBackend twoShownWorld (some 0)).1.heap q = deref twoShownWorld.heap q) ∧
      (ShowWidget sampleBackend twoShownWorld (some 0)).1.app =
        { twoShownWorld.app with mainWidget := { twoShownWorld.app.mainWidget with text :=
            (ShowWidget sampleBackend twoShownWorld (some 0)).1.app.mainWidget.text } } ∧
      recalcCount (ShowWidget sampleBackend twoShownWorld (some 0)).1.ui = recalcCount twoShownWorld.ui + 1) ∧
    ((deref twoShownWorld.heap 0).visible = true →
      (HideWidget sampleBackend twoShownWorld (some 0)).2 = none ∧
      (HideWidget sampleBackend twoShownWorld (some 0)).1.heap = twoShownWorld.heap.set 0 { deref twoShownWorld.heap 0 with visible := false } ∧
      (∀ q, q ≠ 0 → deref (HideWidget sampleBackend twoShownWorld (some 0)).1.heap q = deref twoShownWorld.heap q) ∧
      (HideWidget sampleBackend twoShownWorld (some 0)).1.app =
        { twoShownWorld.app with mainWidget := { twoShownWorld.app.mainWidget with text :=
            (HideWidget sampleBackend twoShownWorld (some 0)).1.app.mainWidget.text } } ∧
      recalcCount (HideWidget sampleBackend twoShownWorld (some 0)).1.ui = recalcCount twoShownWorld.ui + 1) ∧
    ShowWidget sampleBackend (ShowWidget sampleBackend twoShownWorld (some 0)).1 (some 0) = ((ShowWidget sampleBackend twoShownWorld (some 0)).1, none) ∧
    HideWidget sampleBackend (HideWidget sampleBackend twoShownWorld (some 0)).1 (some 0) = ((HideWidget sampleBackend twoShownWorld (some 0)).1, none)) ∧
    ShowWidget sampleBackend twoShownWorld (some 0) = (twoShownWorld, none) ∧
    recalcCount (HideWidget sampleBackend twoShownWorld (some 0)).1.ui
      = recalcCount twoShownWorld.ui + 1 :=
  ⟨by decide,
    C9_show_and_hide_are_idempotent sampleBackend twoShownWorld 0 (by decide),
    (C9_show_and_hide_are_idempotent sampleBackend twoShownWorld 0 (by decide)).1 (by decide),
    ((C9_show_and_hide_are_idempotent sampleBackend twoShownWorld 0 (by decide)).2.2.2.1
      (by decide)).2.2.2.2⟩

/-! ## The widget collection stays well formed -/

theorem wellFormed_of_no_widgets (w : World) (h : w.app.widgets = []) : WellFormed w := by
  simp [WellFormed, h]

theorem wellFormed_NewAndAddWidget (tui : Backend) (w : World) (command : Option Command)
    (widget : Option Drawable) (weight : Int) (h : WellFormed w) :
    WellFormed (NewAndAddWidget tui w command widget weight).1 := by
  cases command with
  | none => exact h
  | some c =>
    cases widget with
    | none => exact h
    | some d =>
      by_cases hr : weight < 1 ∨ weight > 10
      · have hsame : (NewAndAddWidget tui w (some c) (some d) weight).1 = w := by
          simp [NewAndAddWidget, NewWidget, hr]
        rw [hsame]; exact h
      · have hnew : (NewAndAddWidget tui w (some c) (some d) weight).1 =
            redrawWidgets tui (recalculateWidgetSizes
              { w with
                heap := w.heap ++ [{ drawable := d, title := c.title, weight := weight,
                                     visible := false }]
                app := { w.app with widgets := w.app.widgets ++ [w.heap.length] } }) := by
          simp [NewAndAddWidget, NewWidget, hr]
        rw [hnew, redraw_recalculate_eq]
        unfold WellFormed
        simp only
        constructor
        · rw [List.nodup_append]
          refine ⟨h.1, List.nodup_singleton _, ?_⟩
          intro a ha hb
          have hlt := h.2 a ha
          simp at hb
          omega
        · intro q hq
          simp only [List.mem_append, List.mem_singleton] at hq
          simp only [List.length_append, List.length_singleton]
          rcases hq with hq | hq
          · have := h.2 q hq; omega
          · omega

theorem wellFormed_ShowWidget (tui : Backend) (w : World) (widget : Option Nat)
    (h : WellFormed w) : WellFormed (ShowWidget tui w widget).1 := by
  cases widget with
  | none => exact h
  | some p =>
    cases hv : (deref w.heap p).visible with
    | true => rw [ShowWidget_visible tui w p hv]; exact h
    | false =>
      rw [ShowWidget_hidden tui w p hv, redraw_recalculate_eq]
      simpa [WellFormed] using h

theorem wellFormed_HideWidget (tui : Backend) (w : World) (widget : Option Nat)
    (h : WellFormed w) : WellFormed (HideWidget tui w widget).1 := by
  cases widget with
  | none => exact h
  | some p =>
    cases hv : (deref w.heap p).visible with
    | false => rw [HideWidget_hidden tui w p hv]; exact h
    | true =>
      rw [HideWidget_visible tui w p hv, redraw_recalculate_eq]
      simpa [WellFormed] using h

/-! ## C10: a key in Typing state -/

/-- In Typing state `handleKeyboardInput` returns without doing anything; the
panicking `keyboardInputTyping` is reached in Subcommand state. -/
theorem handleKeyboardInput_by_state {σ : Type} (tui : Backend) (handle : Handler σ) (s : σ)
    (w : World) (id : String) :
    (w.app.state = .applicationStateTyping →
      handleKeyboardInput tui handle s w id = .ok (s, w)) ∧
    (w.app.state = .applicationStateSubcommand →
      handleKeyboardInput tui handle s w id =
        .error (.panic "keyboardInputTyping not implemented yet")) := by
  constructor
  · intro h; simp [handleKeyboardInput, h]
  · intro h; simp [handleKeyboardInput, h, keyboardInputTyping]

/-- C10, evaluated where it fails: in Typing state the key "a" is handled by
returning normally with the state and the world unchanged; the same key
panics in Subcommand state, the case that calls `keyboardInputTyping`. -/
theorem C10_typing_state_key_returns_normally :
    typingWorld.app.state = .applicationStateTyping ∧
      handleKeyboardInput sampleBackend idleHandler () typingWorld "a" = .ok ((), typingWorld) ∧
      subcommandWorld.app.state = .applicationStateSubcommand ∧
      handleKeyboardInput sampleBackend idleHandler () subcommandWorld "a" =
        .error (.panic "keyboardInputTyping not implemented yet") :=
  ⟨rfl, (handleKeyboardInput_by_state sampleBackend idleHandler () typingWorld "a").1 rfl,
    rfl, (handleKeyboardInput_by_state sampleBackend idleHandler () subcommandWorld "a").2 rfl⟩

/-! ## Printing: lemmas -/

/-- The world `Printf` produces: the lines of the text are appended to the
log, the main paragraph shows the window of the new log and is rendered. -/
theorem Printf_eq (tui : Backend) (w : World) (str : String) :
    Printf tui w str =
      { w with
        app := { w.app with
          mainText := w.app.mainText ++ (splitNewline str.data).map String.mk,
          mainWidget := { w.app.mainWidget with
            text := displayText (w.app.mainText ++ (splitNewline str.data).map String.mk)
              (tui.mainWidgetSizeY w.ui) } },
        ui := w.ui ++ [.renderMain] } := rfl

theorem splitNewline_no_newline (ys : List Char) (h : '\n' ∉ ys) : splitNewline ys = [ys] := by
  induction ys with
  | nil => rfl
  | cons c cs ih =>
    have hc : c ≠ '\n' := fun e => h (e ▸ List.mem_cons_self _ _)
    have hcs : '\n' ∉ cs := fun hm => h (List.mem_cons_of_mem _ hm)
    simp [splitNewline, hc, ih hcs]

/-- Splitting a text that ends with a piece free of newlines: the piece
extends the last line of the split of what precedes it. -/
theorem splitNewline_append (xs ys : List Char) (h : '\n' ∉ ys) :
    ∃ (init : List (List Char)) (last : List Char),
      splitNewline xs = init ++ [last] ∧ splitNewline (xs ++ ys) = init ++ [last ++ ys] := by
  induction xs with
  | nil => exact ⟨[], [], rfl, by simpa using splitNewline_no_newline ys h⟩
  | cons c cs ih =>
    obtain ⟨init, last, h1, h2⟩ := ih
    by_cases hc : c = '\n'
    · refine ⟨[] :: init, last, ?_, ?_⟩
      · simp [splitNewline, hc, h1]
      · simp [splitNewline, hc, h2]
    · cases init with
      | nil =>
        refine ⟨[], c :: last, ?_, ?_⟩
        · simp [splitNewline, hc, h1]
        · simp [splitNewline, hc, h2]
      | cons a t =>
        refine ⟨(c :: a) :: t, last, ?_, ?_⟩
        · simp [splitNewline, hc, h1]
        · simp [splitNewline, hc, h2]

/-! ## C11: a key that is not mapped -/

theorem handleKeyboardInput_normal {σ : Type} (tui : Backend) (handle : Handler σ) (s : σ)
    (w : World) (id : String) (hstate : w.app.state = .applicationStateNormal) :
    handleKeyboardInput tui handle s w id = keyboardInputNormal tui handle s w id := by
  simp [handleKeyboardInput, hstate]

/-- The lines of the message for an unmapped key: the last one ends with the
fixed tail of the message, and there is just one when the key id holds no
newline. -/
theorem unmapped_message_lines (id : String) :
    ∃ (init : List String) (last : String),
      (splitNewline ("key '" ++ id ++ "' is not mapped to any command.").data).map String.mk
        = init ++ [last] ∧
      "not mapped".data <:+: last.data ∧
      ('\n' ∉ id.data →
        init = [] ∧ last = "key '" ++ id ++ "' is not mapped to any command.") := by
  have hfree : '\n' ∉ "' is not mapped to any command.".data := by decide
  obtain ⟨init, last, h1, h2⟩ :=
    splitNewline_append ("key '".data ++ id.data) "' is not mapped to any command.".data hfree
  have hdata : ("key '" ++ id ++ "' is not mapped to any command.").data =
      ("key '".data ++ id.data) ++ "' is not mapped to any command.".data := by
    simp [String.data_append]
  refine ⟨init.map String.mk, String.mk (last ++ "' is not mapped to any command.".data), ?_, ?_, ?_⟩
  · rw [hdata, h2]; simp
  · refine ⟨last ++ "' is ".data, " to any command.".data, ?_⟩
    simp
  · intro hid
    have hxs : '\n' ∉ ("key '".data ++ id.data) := by
      intro hm
      rcases List.mem_append.mp hm with hm | hm
      · revert hm; decide
      · exact hid hm
    have hsingle := splitNewline_no_newline _ hxs
    rw [hsingle] at h1
    have hinit : init = [] ∧ last = "key '".data ++ id.data := by
      cases init with
      | nil => simpa using h1.symm
      | cons a t =>
        have hlen := congrArg List.length h1
        simp at hlen
    obtain ⟨hi, hl⟩ := hinit
    subst hi
    refine ⟨rfl, ?_⟩
    rw [hl]
    apply String.ext
    simp [String.data_append]

/-- C11: in Normal state, a key other than ">" that no command is bound to
makes `handleKeyboardInput` return normally, whatever the `Handle` hooks are
and with the state of the embedding program untouched (no hook is invoked);
the lines of the message are appended to the log after the earlier entries,
the last of them contains "not mapped" (and is the whole message when the key
id holds no newline); the state stays Normal, and the registry, the widgets,
the quit flag and every other field of the application except the text shown
in the main paragraph are unchanged. -/
theorem C11_unmapped_key_is_reported {σ : Type} (tui : Backend) (handle : Handler σ) (s : σ)
    (w : World) (id : String)
    (hstate : w.app.state = .applicationStateNormal) (hid : id ≠ ">")
    (hnone : findCommandByTrigger w.app id = none) :
    ∃ (w' : World) (init : List String) (last : String),
      handleKeyboardInput tui handle s w id = .ok (s, w') ∧
      (∀ handle' : Handler σ, handleKeyboardInput tui handle' s w id = .ok (s, w')) ∧
      w'.app.mainText = w.app.mainText ++ init ++ [last] ∧
      "not mapped".data <:+: last.data ∧
      ('\n' ∉ id.data →
        init = [] ∧ last = "key '" ++ id ++ "' is not mapped to any command.") ∧
      w'.app.state = .applicationStateNormal ∧
      w'.app.commands = w.app.commands ∧
      w'.app.widgets = w.app.widgets ∧
      w'.heap = w.heap ∧
      w'.app.quitFlag = w.app.quitFlag ∧
      w'.app = { w.app with
        mainText := w'.app.mainText,
        mainWidget := { w.app.mainWidget with text := w'.app.mainWidget.text } } ∧
      w'.ui = w.ui ++ [.renderMain] := by
  obtain ⟨init, last, hlines, hinfix, hsingle⟩ := unmapped_message_lines id
  have hrun : ∀ handle' : Handler σ, handleKeyboardInput tui handle' s w id =
      .ok (s, Printf tui w ("key '" ++ id ++ "' is not mapped to any command.")) := by
    intro handle'
    rw [handleKeyboardInput_normal tui handle' s w id hstate]
    simp [keyboardInputNormal, hid, hnone]
  refine ⟨Printf tui w ("key '" ++ id ++ "' is not mapped to any command."), init, last,
    hrun handle, hrun, ?_, hinfix, hsingle, ?_, ?_, ?_, ?_, ?_, ?_, ?_⟩
  · rw [Printf_eq]; simp only; rw [hlines, List.append_assoc]
  · rw [Printf_eq]; exact hstate
  · rw [Printf_eq]
  · rw [Printf_eq]
  · rw [Printf_eq]
  · rw [Printf_eq]
  · rw [Printf_eq]
  · rw [Printf_eq]

/-- C11 at a concrete input: in the example application, where "h" and "q"
are bound, the key "x" is handled. -/
theorem C11_unmapped_key_is_reported_witness :
    (exampleStart.app.state = .applicationStateNormal ∧ "x" ≠ ">" ∧
      findCommandByTrigger exampleStart.app "x" = none) ∧
    (∃ (w' : World) (init : List String) (last : String),
      handleKeyboardInput sampleBackend (exampleHandle sampleBackend) helpCommand.zero exampleStart "x" = .ok (helpCommand.zero, w') ∧
      (∀ handle' : Handler helpCommand, handleKeyboardInput sampleBackend handle' helpCommand.zero exampleStart "x" = .ok (helpCommand.zero, w')) ∧
      w'.app.mainText = exampleStart.app.mainText ++ init ++ [last] ∧
      "not mapped".data <:+: last.data ∧
      ('\n' ∉ "x".data →
        init = [] ∧ last = "key '" ++ "x" ++ "' is not mapped to any command.") ∧
      w'.app.state = .applicationStateNormal ∧
      w'.app.commands = exampleStart.app.commands ∧
      w'.app.widgets = exampleStart.app.widgets ∧
      w'.heap = exampleStart.heap ∧
      w'.app.quitFlag = exampleStart.app.quitFlag ∧
      w'.app = { exampleStart.app with
        mainText := w'.app.mainText,
        mainWidget := { exampleStart.app.mainWidget with text := w'.app.mainWidget.text } } ∧
      w'.ui = exampleStart.ui ++ [.renderMain]) :=
  ⟨by decide,
    C11_unmapped_key_is_reported sampleBackend (exampleHandle sampleBackend) helpCommand.zero
      exampleStart "x" (by decide) (by decide) (by decide)⟩

/-! ## C12: a handler that fails -/

/-- C12, as stated, fails for the key ">": with a command registered under
">" whose `Handle` would return an error, the key ">" in Normal state invokes
no `Handle` (the invocation count stays 0), appends nothing to the log and
moves the application to Typing state. -/
theorem C12_line_entry_key_bypasses_handler :
    promptBoundWorld.app.state = .applicationStateNormal ∧
      findCommandByTrigger promptBoundWorld.app ">" = some (sampleCommand 3 ">") ∧
      failingHandler (sampleCommand 3 ">") 0 promptBoundWorld
        = .ok (1, promptBoundWorld, some "boom") ∧
      ∃ w', handleKeyboardInput sampleBackend failingHandler 0 promptBoundWorld ">" = .ok (0, w') ∧
        w'.app.state = .applicationStateTyping ∧
        w'.app.mainText = promptBoundWorld.app.mainText :=
  ⟨by decide, by decide, rfl, _, rfl, by decide, by decide⟩

/-- C12, amended: in Normal state, for a key other than ">" that is bound to a
command whose `Handle` returns an error `err` and leaves the world as it is,
`handleKeyboardInput` returns normally with the state of the embedding
program that one invocation of `Handle` produced; the lines of the text
"Error handling command '<title>': <err>" are appended to the log (one line,
the text itself, when neither the title nor the error holds a newline); the
state stays Normal, the quit flag, the registry and the widgets are unchanged. -/
theorem C12_handler_error_is_reported {σ : Type} (tui : Backend) (handle : Handler σ) (s s' : σ)
    (w : World) (id : String) (command : Command) (err : String)
    (hstate : w.app.state = .applicationStateNormal) (hid : id ≠ ">")
    (hfound : findCommandByTrigger w.app id = some command)
    (herr : handle command s w = .ok (s', w, some err)) :
    ∃ w' : World,
      handleKeyboardInput tui handle s w id = .ok (s', w') ∧
      w' = Printf tui w ("Error handling command '" ++ command.title ++ "': " ++ err) ∧
      w'.app.mainText = w.app.mainText ++
        (splitNewline ("Error handling command '" ++ command.title ++ "': " ++ err).data).map
          String.mk ∧
      ('\n' ∉ command.title.data → '\n' ∉ err.data →
        w'.app.mainText = w.app.mainText ++
          ["Error handling command '" ++ command.title ++ "': " ++ err]) ∧
      w'.app.state = .applicationStateNormal ∧
      w'.app.quitFlag = w.app.quitFlag ∧
      w'.app.commands = w.app.commands ∧
      w'.app.widgets = w.app.widgets ∧
      w'.heap = w.heap ∧
      w'.ui = w.ui ++ [.renderMain] := by
  refine ⟨Printf tui w ("Error handling command '" ++ command.title ++ "': " ++ err),
    ?_, rfl, ?_, ?_, ?_, ?_, ?_, ?_, ?_, ?_⟩
  · rw [handleKeyboardInput_normal tui handle s w id hstate]
    simp [keyboardInputNormal, hid, hfound, herr]
  · rw [Printf_eq]
  · intro ht he
    rw [Printf_eq]
    simp only
    have hfree : '\n' ∉ ("Error handling command '" ++ command.title ++ "': " ++ err).data := by
      simp only [String.data_append, List.mem_append, not_or]
      exact ⟨⟨⟨by decide, ht⟩, by decide⟩, he⟩
    rw [splitNewline_no_newline _ hfree]
    rfl
  · rw [Printf_eq]; exact hstate
  · rw [Printf_eq]
  · rw [Printf_eq]
  · rw [Printf_eq]
  · rw [Printf_eq]
  · rw [Printf_eq]

/-- C12 amended, at a concrete input: in the example application the key "q"
is dispatched to a hook that fails. -/
theorem C12_handler_error_is_reported_witness :
    (exampleStart.app.state = .applicationStateNormal ∧ "q" ≠ ">" ∧
      findCommandByTrigger exampleStart.app "q" = some quitCommand.toCommand ∧
      failingHandler quitCommand.toCommand 0 exampleStart = .ok (1, exampleStart, some "boom")) ∧
    (∃ w' : World,
      handleKeyboardInput sampleBackend failingHandler 0 exampleStart "q" = .ok (1, w') ∧
      w' = Printf sampleBackend exampleStart ("Error handling command '" ++ quitCommand.toCommand.title ++ "': " ++ "boom") ∧
      w'.app.mainText = exampleStart.app.mainText ++
        (splitNewline ("Error handling command '" ++ quitCommand.toCommand.title ++ "': " ++ "boom").data).map
          String.mk ∧
      ('\n' ∉ quitCommand.toCommand.title.data → '\n' ∉ "boom".data →
        w'.app.mainText = exampleStart.app.mainText ++
          ["Error handling command '" ++ quitCommand.toCommand.title ++ "': " ++ "boom"]) ∧
      w'.app.state = .applicationStateNormal ∧
      w'.app.quitFlag = exampleStart.app.quitFlag ∧
      w'.app.commands = exampleStart.app.commands ∧
      w'.app.widgets = exampleStart.app.widgets ∧
      w'.heap = exampleStart.heap ∧
      w'.ui = exampleStart.ui ++ [.renderMain]) :=
  ⟨⟨by decide, by decide, by decide, rfl⟩,
    C12_handler_error_is_reported sampleBackend failingHandler 0 1 exampleStart "q"
      quitCommand.toCommand "boom" (by decide) (by decide) (by decide) rfl⟩

/-! ## Events: lemmas -/

theorem handleDefaultEvent_empty (tui : Backend) (w : World) (h : w.app.uiEventChan = []) :
    handleDefaultEvent tui w = .error .blocked := by
  simp [handleDefaultEvent, h]

theorem handleDefaultEvent_ctrl_c (tui : Backend) (w : World) (rest : List Event)
    (h : w.app.uiEventChan = .KeyboardEvent "<C-c>" :: rest) :
    handleDefaultEvent tui w =
      .ok (Quit (Printf tui (withEvents w rest) "Ctrl-C detected, quitting application...\n"),
        none) := by
  simp [handleDefaultEvent, h, withEvents]

theorem handleDefaultEvent_key (tui : Backend) (w : World) (id : String) (rest : List Event)
    (h : w.app.uiEventChan = .KeyboardEvent id :: rest) (hid : id ≠ "<C-c>") :
    handleDefaultEvent tui w = .ok (withEvents w rest, some (.KeyboardEvent id)) := by
  simp [handleDefaultEvent, h, hid, withEvents]

theorem handleDefaultEvent_resize (tui : Backend) (w : World) (width height : Int)
    (rest : List Event) (h : w.app.uiEventChan = .ResizeEvent width height :: rest) :
    handleDefaultEvent tui w =
      .ok (onTerminalResize tui (withEvents w rest) (width, height), none) := by
  simp [handleDefaultEvent, h, withEvents]

theorem handleDefaultEvent_mouse (tui : Backend) (w : World) (id : String) (rest : List Event)
    (h : w.app.uiEventChan = .MouseEvent id :: rest) :
    handleDefaultEvent tui w = .ok (withEvents w rest, none) := by
  simp [handleDefaultEvent, h, withEvents]

/-- The world a resize produces. -/
theorem onTerminalResize_eq (tui : Backend) (w : World) (size : Int × Int) :
    onTerminalResize tui w size =
      { w with
        app := { w.app with
          size := size,
          mainWidget := { w.app.mainWidget with
            text := displayText w.app.mainText (tui.mainWidgetSizeY (w.ui ++
              [ .gridSetRect 0 0 size.1 (size.2 - 3),
                .gridSet (layoutRows w.heap w.app.widgets),
                .cmdSetRect 0 (size.2 - 3) size.1 size.2,
                .clear, .renderGridAndCmd ])) } },
        ui := w.ui ++
          [ .gridSetRect 0 0 size.1 (size.2 - 3),
            .gridSet (layoutRows w.heap w.app.widgets),
            .cmdSetRect 0 (size.2 - 3) size.1 size.2,
            .clear, .renderGridAndCmd, .renderMain ] } := by
  unfold onTerminalResize
  rw [redraw_recalculate_eq]

/-- The world the Ctrl-C branch of `handleDefaultEvent` produces. -/
theorem quit_notice_eq (tui : Backend) (w : World) :
    Quit (Printf tui w "Ctrl-C detected, quitting application...\n") =
      { w with
        app := { w.app with
          quitFlag := true,
          mainText := w.app.mainText ++ ["Ctrl-C detected, quitting application...", ""],
          mainWidget := { w.app.mainWidget with
            text := displayText
              (w.app.mainText ++ ["Ctrl-C detected, quitting application...", ""])
              (tui.mainWidgetSizeY w.ui) } },
        ui := w.ui ++ [.renderMain, .close] } := by
  have hsplit : (splitNewline "Ctrl-C detected, quitting application...\n".data).map String.mk
      = ["Ctrl-C detected, quitting application...", ""] := by decide
  rw [Printf_eq, hsplit]
  simp [Quit]

/-! ## The loops and their fuel -/

/-- Receiving an event takes exactly one event off the channel. -/
theorem handleDefaultEvent_takes_one (tui : Backend) (w w' : World) (r : Option Event)
    (h : handleDefaultEvent tui w = .ok (w', r)) :
    w.app.uiEventChan.length = w'.app.uiEventChan.length + 1 := by
  cases hchan : w.app.uiEventChan with
  | nil => rw [handleDefaultEvent_empty tui w hchan] at h; cases h
  | cons e rest =>
    cases e with
    | KeyboardEvent id =>
      by_cases hid : id = "<C-c>"
      · subst hid
        rw [handleDefaultEvent_ctrl_c tui w rest hchan] at h
        injection h with h
        injection h with h1 _
        rw [← h1, quit_notice_eq]
        rfl
      · rw [handleDefaultEvent_key tui w id rest hchan hid] at h
        injection h with h
        injection h with h1 _
        rw [← h1]
        rfl
    | ResizeEvent width height =>
      rw [handleDefaultEvent_resize tui w width height rest hchan] at h
      injection h with h
      injection h with h1 _
      rw [← h1, onTerminalResize_eq]
      rfl
    | MouseEvent id =>
      rw [handleDefaultEvent_mouse tui w id rest hchan] at h
      injection h with h
      injection h with h1 _
      rw [← h1]
      rfl

theorem ReadKeyLoop_step_none (tui : Backend) (fuel : Nat) (w w' : World)
    (h : handleDefaultEvent tui w = .ok (w', none)) :
    ReadKeyLoop tui (fuel + 1) w = ReadKeyLoop tui fuel w' := by
  simp only [ReadKeyLoop, h]

/-- More turns than there are events to come change nothing for `ReadKey`:
the loop returns, panics or blocks within one turn per event plus one. -/
theorem ReadKeyLoop_fuel (tui : Backend) :
    ∀ (n : Nat) (w : World) (fuel : Nat), w.app.uiEventChan.length = n → n + 1 ≤ fuel →
      ReadKeyLoop tui fuel w = ReadKey tui w := by
  intro n
  induction n with
  | zero =>
    intro w fuel hlen hfuel
    obtain ⟨f, rfl⟩ : ∃ f, fuel = f + 1 := ⟨fuel - 1, by omega⟩
    have hchan : w.app.uiEventChan = [] := List.length_eq_zero.mp hlen
    simp [ReadKey, ReadKeyLoop, handleDefaultEvent_empty tui w hchan, hchan]
  | succ n ih =>
    intro w fuel hlen hfuel
    obtain ⟨f, rfl⟩ : ∃ f, fuel = f + 1 := ⟨fuel - 1, by omega⟩
    unfold ReadKey
    rw [hlen]
    cases hstep : handleDefaultEvent tui w with
    | error a => simp [ReadKeyLoop, hstep]
    | ok r =>
      obtain ⟨w', ev⟩ := r
      have hone := handleDefaultEvent_takes_one tui w w' ev hstep
      cases ev with
      | some e => simp [ReadKeyLoop, hstep]
      | none =>
        have hlen' : w'.app.uiEventChan.length = n := by omega
        rw [ReadKeyLoop_step_none tui f w w' hstep, ReadKeyLoop_step_none tui (n + 1) w w' hstep,
          ih w' f hlen' (by omega), ih w' (n + 1) hlen' (by omega)]

/-- Once the run loop has ended within `fuel` turns, more turns give the same
result. -/
theorem RunLoop_mono {σ : Type} (tui : Backend) (handle : Handler σ) :
    ∀ (fuel : Nat) (s : σ) (w : World) (r : Except Abort (σ × World)),
      RunLoop tui handle fuel s w = some r → RunLoop tui handle (fuel + 1) s w = some r := by
  intro fuel
  induction fuel with
  | zero =>
    intro s w r h
    by_cases hq : w.app.quitFlag = true
    · simpa [RunLoop, hq] using h
    · simp [RunLoop, hq] at h
  | succ n ih =>
    intro s w r h
    by_cases hq : w.app.quitFlag = true
    · simpa [RunLoop, hq] using h
    · rw [RunLoop] at h ⊢
      simp only [hq] at h ⊢
      cases hstep : handleDefaultEvent tui w with
      | error a => simpa [hstep] using h
      | ok res =>
        obtain ⟨w', ev⟩ := res
        cases ev with
        | none =>
          simp only [hstep] at h ⊢
          exact ih s w' r h
        | some e =>
          simp only [hstep] at h ⊢
          cases hkey : handleKeyboardInput tui handle s w' e.ID with
          | error a => simpa [hkey] using h
          | ok res2 =>
            obtain ⟨s2, w2⟩ := res2
            simp only [hkey] at h ⊢
            exact ih s2 w2 r h

/-- The run loop returns normally only with the quit flag set. -/
theorem RunLoop_ok_quitFlag {σ : Type} (tui : Backend) (handle : Handler σ) :
    ∀ (fuel : Nat) (s s' : σ) (w w' : World),
      RunLoop tui handle fuel s w = some (.ok (s', w')) → w'.app.quitFlag = true := by
  intro fuel
  induction fuel with
  | zero =>
    intro s s' w w' h
    by_cases hq : w.app.quitFlag = true
    · simp [RunLoop, hq] at h
      rw [← h.2]; exact hq
    · simp [RunLoop, hq] at h
  | succ n ih =>
    intro s s' w w' h
    by_cases hq : w.app.quitFlag = true
    · simp [RunLoop, hq] at h
      rw [← h.2]; exact hq
    · rw [RunLoop] at h
      simp only [hq] at h
      cases hstep : handleDefaultEvent tui w with
      | error a => simp [hstep] at h
      | ok res =>
        obtain ⟨w1, ev⟩ := res
        cases ev with
        | none =>
          simp only [hstep] at h
          exact ih s s' w1 w' h
        | some e =>
          simp only [hstep] at h
          cases hkey : handleKeyboardInput tui handle s w1 e.ID with
          | error a => simp [hkey] at h
          | ok res2 =>
            obtain ⟨s2, w2⟩ := res2
            simp only [hkey] at h
            exact ih s2 s' w2 w' h

/-- A sequence of events that holds a keyboard event other than Ctrl-C splits
at the first such event. -/
theorem first_key_split (events : List Event) :
    (∃ id, Event.KeyboardEvent id ∈ events ∧ id ≠ "<C-c>") →
      ∃ (pre : List Event) (id : String) (post : List Event),
        events = pre ++ .KeyboardEvent id :: post ∧ id ≠ "<C-c>" ∧
        (∀ e ∈ pre, ∀ k, e = .KeyboardEvent k → k = "<C-c>") := by
  induction events with
  | nil => rintro ⟨id, hmem, _⟩; simp at hmem
  | cons e rest ih =>
    rintro ⟨id, hmem, hid⟩
    by_cases hfirst : ∃ k, e = .KeyboardEvent k ∧ k ≠ "<C-c>"
    · obtain ⟨k, rfl, hk⟩ := hfirst
      exact ⟨[], k, rest, rfl, hk, by simp⟩
    · have hrest : ∃ id, Event.KeyboardEvent id ∈ rest ∧ id ≠ "<C-c>" := by
        rcases List.mem_cons.mp hmem with h | h
        · exact absurd ⟨id, h.symm, hid⟩ hfirst
        · exact ⟨id, h, hid⟩
      obtain ⟨pre, id', post, hsplit, hid', hpre⟩ := ih hrest
      refine ⟨e :: pre, id', post, by simp [hsplit], hid', ?_⟩
      intro x hx k hk
      rcases List.mem_cons.mp hx with h | h
      · subst h
        by_contra hne
        exact hfirst ⟨k, hk, hne⟩
      · exact hpre x h k hk

/-! ## C13: Ctrl-C -/

/-- In the main loop a Ctrl-C ends the loop at once: the notice is logged, the
backend is closed, the quit flag is set, no `Handle` hook runs and the events
that follow stay in the channel. -/
theorem RunLoop_ctrl_c {σ : Type} (tui : Backend) (handle : Handler σ) (fuel : Nat) (s : σ)
    (w : World) (rest : List Event) (hq : w.app.quitFlag = false)
    (h : w.app.uiEventChan = .KeyboardEvent "<C-c>" :: rest) :
    RunLoop tui handle (fuel + 1) s w =
        some (.ok (s,
          Quit (Printf tui (withEvents w rest) "Ctrl-C detected, quitting application...\n"))) ∧
      (Quit (Printf tui (withEvents w rest)
        "Ctrl-C detected, quitting application...\n")).app.uiEventChan = rest ∧
      (Quit (Printf tui (withEvents w rest)
        "Ctrl-C detected, quitting application...\n")).app.quitFlag = true := by
  have hflag : (Quit (Printf tui (withEvents w rest)
      "Ctrl-C detected, quitting application...\n")).app.quitFlag = true := by
    rw [quit_notice_eq]
  refine ⟨?_, ?_, hflag⟩
  · cases fuel with
    | zero => simp [RunLoop, hq, handleDefaultEvent_ctrl_c tui w rest h, hflag]
    | succ n => simp [RunLoop, hq, handleDefaultEvent_ctrl_c tui w rest h, hflag]
  · rw [quit_notice_eq]; rfl

/-- Inside `ReadKey` a Ctrl-C does not end the read: after the notice and the
quit, the loop goes on receiving from the channel. -/
theorem ReadKey_continues_after_ctrl_c (tui : Backend) (w : World) (rest : List Event)
    (h : w.app.uiEventChan = .KeyboardEvent "<C-c>" :: rest) :
    ReadKey tui w =
      ReadKey tui
        (Quit (Printf tui (withEvents w rest) "Ctrl-C detected, quitting application...\n")) := by
  have hchan : (Quit (Printf tui (withEvents w rest)
      "Ctrl-C detected, quitting application...\n")).app.uiEventChan = rest := by
    rw [quit_notice_eq]; rfl
  unfold ReadKey
  rw [hchan, h]
  simp [ReadKeyLoop, handleDefaultEvent_ctrl_c tui w rest h]

/-- C13, evaluated where it fails.  In the main loop the Ctrl-C ends the loop
and leaves the keys "x" and "z" in the channel.  Inside `ReadKey` the same
Ctrl-C logs the notice and sets the quit flag, but the read goes on: it
receives the next event and returns "x".  Hence the run of the example on
"q", Ctrl-C, "x", "z" consumes "x" after the Ctrl-C (the quit command then
logs "Quit cancelled."). -/
theorem C13_ReadKey_consumes_events_after_ctrl_c :
    (∃ w1, Run sampleBackend (exampleHandle sampleBackend) 5 helpCommand.zero exampleStart
          ctrlCThenKeys = some (.ok (helpCommand.zero, w1)) ∧
        w1.app.quitFlag = true ∧
        w1.app.uiEventChan = [.KeyboardEvent "x", .KeyboardEvent "z"] ∧
        w1.app.mainText = ["Ctrl-C detected, quitting application...", ""]) ∧
    (∃ w2, ReadKey sampleBackend (withEvents exampleStart ctrlCThenKeys) = .ok (w2, "x", none) ∧
        w2.app.quitFlag = true ∧
        w2.app.uiEventChan = [.KeyboardEvent "z"] ∧
        w2.app.mainText = ["Ctrl-C detected, quitting application...", ""]) ∧
    (∃ s3 w3, Run sampleBackend (exampleHandle sampleBackend) 5 helpCommand.zero exampleStart
          (.KeyboardEvent "q" :: ctrlCThenKeys) = some (.ok (s3, w3)) ∧
        w3.app.quitFlag = true ∧
        w3.app.uiEventChan = [.KeyboardEvent "z"] ∧
        w3.app.mainText =
          ["Quit? press 'y' to confirm, any other key to cancel.",
            "Ctrl-C detected, quitting application...", "", "Quit cancelled."]) :=
  ⟨⟨_, rfl, by decide, by decide, by decide⟩,
    ⟨_, rfl, by decide, by decide, by decide⟩,
    ⟨_, _, rfl, by decide, by decide, by decide⟩⟩

/-! ## C14: a resize event -/

/-- C14: when the next event is a resize to `width` by `height`, receiving it
sets `size` to `(width, height)` and then recomputes the layout against that
size: the grid gets the rectangle `(0, 0, width, height - 3)` and the rows of
the current widgets, the command line the rectangle
`(0, height - 3, width, height)`, followed by the redraw.  The input state,
the registry, the widgets and their objects, the log and the quit flag are
unchanged, no event is handed to the caller, and a turn of the run loop that
receives the event invokes no `Handle` hook. -/
theorem C14_resize_sets_size_then_recomputes_layout (tui : Backend) (w : World)
    (width height : Int) (rest : List Event)
    (h : w.app.uiEventChan = .ResizeEvent width height :: rest) :
    ∃ w' : World,
      handleDefaultEvent tui w = .ok (w', none) ∧
      w'.app.size = (width, height) ∧
      w'.ui = w.ui ++
        [ .gridSetRect 0 0 width (height - 3),
          .gridSet (layoutRows w.heap w.app.widgets),
          .cmdSetRect 0 (height - 3) width height,
          .clear, .renderGridAndCmd, .renderMain ] ∧
      w'.app.state = w.app.state ∧
      w'.app.commands = w.app.commands ∧
      w'.app.widgets = w.app.widgets ∧
      w'.heap = w.heap ∧
      w'.app.mainText = w.app.mainText ∧
      w'.app.quitFlag = w.app.quitFlag ∧
      w'.app.uiEventChan = rest ∧
      w'.app = { w.app with
        size := (width, height), uiEventChan := rest,
        mainWidget := { w.app.mainWidget with text := w'.app.mainWidget.text } } ∧
      (∀ (σ : Type) (handle : Handler σ) (fuel : Nat) (s : σ), w.app.quitFlag = false →
        RunLoop tui handle (fuel + 1) s w = RunLoop tui handle fuel s w') := by
  refine ⟨onTerminalResize tui (withEvents w rest) (width, height),
    handleDefaultEvent_resize tui w width height rest h, ?_, ?_, ?_, ?_, ?_, ?_, ?_, ?_, ?_, ?_, ?_⟩
  · rw [onTerminalResize_eq]
  · rw [onTerminalResize_eq]; rfl
  · rw [onTerminalResize_eq]; rfl
  · rw [onTerminalResize_eq]; rfl
  · rw [onTerminalResize_eq]; rfl
  · rw [onTerminalResize_eq]; rfl
  · rw [onTerminalResize_eq]; rfl
  · rw [onTerminalResize_eq]; rfl
  · rw [onTerminalResize_eq]; rfl
  · rw [onTerminalResize_eq]; rfl
  · intro σ handle fuel s hq
    simp [RunLoop, hq, handleDefaultEvent_resize tui w width height rest h]

/-- C14 at a concrete input: the world with two shown widgets receives a
resize to 100 by 40, with a key waiting behind it. -/
theorem C14_resize_sets_size_then_recomputes_layout_witness :
    (withEvents twoShownWorld [.ResizeEvent 100 40, .KeyboardEvent "x"]).app.uiEventChan
        = .ResizeEvent 100 40 :: [.KeyboardEvent "x"] ∧
    (∃ w' : World,
      handleDefaultEvent sampleBackend (withEvents twoShownWorld [.ResizeEvent 100 40, .KeyboardEvent "x"]) = .ok (w', none) ∧
      w'.app.size = (100, 40) ∧
      w'.ui = (withEvents twoShownWorld [.ResizeEvent 100 40, .KeyboardEvent "x"]).ui ++
        [ .gridSetRect 0 0 100 (40 - 3),
          .gridSet (layoutRows (withEvents twoShownWorld [.ResizeEvent 100 40, .KeyboardEvent "x"]).heap (withEvents twoShownWorld [.ResizeEvent 100 40, .KeyboardEvent "x"]).app.widgets),
          .cmdSetRect 0 (40 - 3) 100 40,
          .clear, .renderGridAndCmd, .renderMain ] ∧
      w'.app.state = (withEvents twoShownWorld [.ResizeEvent 100 40, .KeyboardEvent "x"]).app.state ∧
      w'.app.commands = (withEvents twoShownWorld [.ResizeEvent 100 40, .KeyboardEvent "x"]).app.commands ∧
      w'.app.widgets = (withEvents twoShownWorld [.ResizeEvent 100 40, .KeyboardEvent "x"]).app.widgets ∧
      w'.heap = (withEvents twoShownWorld [.ResizeEvent 100 40, .KeyboardEvent "x"]).heap ∧
      w'.app.mainText = (withEvents twoShownWorld [.ResizeEvent 100 40, .KeyboardEvent "x"]).app.mainText ∧
      w'.app.quitFlag = (withEvents twoShownWorld [.ResizeEvent 100 40, .KeyboardEvent "x"]).app.quitFlag ∧
      w'.app.uiEventChan = [.KeyboardEvent "x"] ∧
      w'.app = { (withEvents twoShownWorld [.ResizeEvent 100 40, .KeyboardEvent "x"]).app with
        size := (100, 40), uiEventChan := [.KeyboardEvent "x"],
        mainWidget := { (withEvents twoShownWorld [.ResizeEvent 100 40, .KeyboardEvent "x"]).app.mainWidget with text := w'.app.mainWidget.text } } ∧
      (∀ (σ : Type) (handle : Handler σ) (fuel : Nat) (s : σ), (withEvents twoShownWorld [.ResizeEvent 100 40, .KeyboardEvent "x"]).app.quitFlag = false →
        RunLoop sampleBackend handle (fuel + 1) s (withEvents twoShownWorld [.ResizeEvent 100 40, .KeyboardEvent "x"]) = RunLoop sampleBackend handle fuel s w')) :=
  ⟨rfl,
    C14_resize_sets_size_then_recomputes_layout sampleBackend
      (withEvents twoShownWorld [.ResizeEvent 100 40, .KeyboardEvent "x"]) 100 40
      [.KeyboardEvent "x"] rfl⟩

/-! ## C15: the blocking read -/

/-- The loop of `ReadKey` on a channel whose first keyboard event other than
Ctrl-C is `id`, with enough turns left to reach it. -/
theorem ReadKeyLoop_returns_first_key (tui : Backend) (pre : List Event) :
    ∀ (w : World) (fuel : Nat) (id : String) (post : List Event),
      w.app.uiEventChan = pre ++ .KeyboardEvent id :: post → id ≠ "<C-c>" →
      (∀ e ∈ pre, ∀ k, e = .KeyboardEvent k → k = "<C-c>") → pre.length + 1 ≤ fuel →
      ∃ w' : World,
        ReadKeyLoop tui fuel w = .ok (w', id, none) ∧
        w'.app.uiEventChan = post ∧
        w'.app.size = lastResize pre w.app.size ∧
        w'.app.state = w.app.state ∧
        w'.app.commands = w.app.commands ∧
        w'.app.widgets = w.app.widgets ∧
        w'.heap = w.heap ∧
        ((∀ e ∈ pre, e ≠ .KeyboardEvent "<C-c>") →
          w'.app.mainText = w.app.mainText ∧ w'.app.quitFlag = w.app.quitFlag) := by
  induction pre with
  | nil =>
    intro w fuel id post hchan hid _ hfuel
    obtain ⟨f, rfl⟩ : ∃ f, fuel = f + 1 := ⟨fuel - 1, by simp at hfuel; omega⟩
    refine ⟨withEvents w post, ?_, rfl, rfl, rfl, rfl, rfl, rfl, fun _ => ⟨rfl, rfl⟩⟩
    simp [ReadKeyLoop, handleDefaultEvent_key tui w id post (by simpa using hchan) hid, Event.ID]
  | cons e pre' ih =>
    intro w fuel id post hchan hid hpre hfuel
    obtain ⟨f, rfl⟩ : ∃ f, fuel = f + 1 := ⟨fuel - 1, by simp at hfuel; omega⟩
    have hf : pre'.length + 1 ≤ f := by simp at hfuel; omega
    have hpre' : ∀ e ∈ pre', ∀ k, e = .KeyboardEvent k → k = "<C-c>" :=
      fun e he => hpre e (List.mem_cons_of_mem _ he)
    have hchan' : w.app.uiEventChan = e :: (pre' ++ .KeyboardEvent id :: post) := by
      simpa using hchan
    cases e with
    | KeyboardEvent k =>
      have hk : k = "<C-c>" := hpre _ (List.mem_cons_self _ _) k rfl
      subst hk
      have hstep := handleDefaultEvent_ctrl_c tui w _ hchan'
      have hw1 := quit_notice_eq tui (withEvents w (pre' ++ .KeyboardEvent id :: post))
      obtain ⟨w', h1, h2, h3, h4, h5, h6, h7, _⟩ :=
        ih (Quit (Printf tui (withEvents w (pre' ++ .KeyboardEvent id :: post))
          "Ctrl-C detected, quitting application...\n")) f id post
          (by rw [hw1]; rfl) hid hpre' hf
      refine ⟨w', ?_, h2, ?_, ?_, ?_, ?_, ?_, ?_⟩
      · simp only [ReadKeyLoop, hstep]; exact h1
      · rw [h3, hw1]; rfl
      · rw [h4, hw1]; rfl
      · rw [h5, hw1]; rfl
      · rw [h6, hw1]; rfl
      · rw [h7, hw1]; rfl
      · intro hno
        exact absurd rfl (hno _ (List.mem_cons_self _ _))
    | ResizeEvent width height =>
      have hstep := handleDefaultEvent_resize tui w width height _ hchan'
      have hw1 := onTerminalResize_eq tui (withEvents w (pre' ++ .KeyboardEvent id :: post))
        (width, height)
      obtain ⟨w', h1, h2, h3, h4, h5, h6, h7, h8⟩ :=
        ih (onTerminalResize tui (withEvents w (pre' ++ .KeyboardEvent id :: post))
          (width, height)) f id post (by rw [hw1]; rfl) hid hpre' hf
      refine ⟨w', ?_, h2, ?_, ?_, ?_, ?_, ?_, ?_⟩
      · simp only [ReadKeyLoop, hstep]; exact h1
      · rw [h3, hw1]; rfl
      · rw [h4, hw1]; rfl
      · rw [h5, hw1]; rfl
      · rw [h6, hw1]; rfl
      · rw [h7, hw1]; rfl
      · intro hno
        obtain ⟨ha, hb⟩ := h8 (fun e he => hno e (List.mem_cons_of_mem _ he))
        constructor
        · rw [ha, hw1]; rfl
        · rw [hb, hw1]; rfl
    | MouseEvent mid =>
      have hstep := handleDefaultEvent_mouse tui w mid _ hchan'
      obtain ⟨w', h1, h2, h3, h4, h5, h6, h7, h8⟩ :=
        ih (withEvents w (pre' ++ .KeyboardEvent id :: post)) f id post rfl hid hpre' hf
      refine ⟨w', ?_, h2, ?_, h4, h5, h6, h7, ?_⟩
      · simp only [ReadKeyLoop, hstep]; exact h1
      · rw [h3]; rfl
      · intro hno
        exact h8 (fun e he => hno e (List.mem_cons_of_mem _ he))

/-- C15: when the events to come are `pre`, then a keyboard event `id` other
than Ctrl-C, then `post`, where `pre` holds no keyboard event other than
Ctrl-C, `ReadKey` returns `id` with a nil error.  The events of `pre` have
been received and `post` is left in the channel; the size is that of the last
resize event of `pre` (the size of before when there is none); the input
state, the registry, the widgets and their objects are unchanged; when `pre`
holds no Ctrl-C, the log and the quit flag are unchanged too.  `ReadKey` has
no access to the `Handle` hooks or to the state of the embedding program. -/
theorem C15_ReadKey_returns_first_key (tui : Backend) (w : World) (pre : List Event)
    (id : String) (post : List Event)
    (hchan : w.app.uiEventChan = pre ++ .KeyboardEvent id :: post) (hid : id ≠ "<C-c>")
    (hpre : ∀ e ∈ pre, ∀ k, e = .KeyboardEvent k → k = "<C-c>") :
    ∃ w' : World,
      ReadKey tui w = .ok (w', id, none) ∧
      w'.app.uiEventChan = post ∧
      w'.app.size = lastResize pre w.app.size ∧
      w'.app.state = w.app.state ∧
      w'.app.commands = w.app.commands ∧
      w'.app.widgets = w.app.widgets ∧
      w'.heap = w.heap ∧
      ((∀ e ∈ pre, e ≠ .KeyboardEvent "<C-c>") →
        w'.app.mainText = w.app.mainText ∧ w'.app.quitFlag = w.app.quitFlag) := by
  unfold ReadKey
  apply ReadKeyLoop_returns_first_key tui pre w _ id post hchan hid hpre
  rw [hchan]
  simp

/-- C15 at a concrete input: a mouse event and two resize events precede the
key "y"; the size ends as that of the second resize. -/
theorem C15_ReadKey_returns_first_key_witness :
    ((withEvents exampleStart readKeyEvents).app.uiEventChan =
        readKeyBefore ++ .KeyboardEvent "y" :: [.KeyboardEvent "z"] ∧
      "y" ≠ "<C-c>" ∧
      (∀ e ∈ readKeyBefore, ∀ k, e = .KeyboardEvent k → k = "<C-c>")) ∧
    (∃ w' : World,
      ReadKey sampleBackend (withEvents exampleStart readKeyEvents) = .ok (w', "y", none) ∧
      w'.app.uiEventChan = [.KeyboardEvent "z"] ∧
      w'.app.size = lastResize readKeyBefore (withEvents exampleStart readKeyEvents).app.size ∧
      w'.app.state = (withEvents exampleStart readKeyEvents).app.state ∧
      w'.app.commands = (withEvents exampleStart readKeyEvents).app.commands ∧
      w'.app.widgets = (withEvents exampleStart readKeyEvents).app.widgets ∧
      w'.heap = (withEvents exampleStart readKeyEvents).heap ∧
      ((∀ e ∈ readKeyBefore, e ≠ .KeyboardEvent "<C-c>") →
        w'.app.mainText = (withEvents exampleStart readKeyEvents).app.mainText ∧ w'.app.quitFlag = (withEvents exampleStart readKeyEvents).app.quitFlag)) ∧
    lastResize readKeyBefore (withEvents exampleStart readKeyEvents).app.size = (90, 30) :=
  ⟨⟨rfl, by decide, by simp [readKeyBefore]⟩,
    C15_ReadKey_returns_first_key sampleBackend (withEvents exampleStart readKeyEvents)
      readKeyBefore "y" [.KeyboardEvent "z"] rfl (by decide) (by simp [readKeyBefore]),
    rfl⟩

/-! ## The quit command and a Ctrl-C -/

/-- On the events "q", "y" the loop of the example returns with one
`ui.Close()` recorded.  On the events "q", Ctrl-C, "y" it reaches a second
`ui.Close()`: the Ctrl-C received inside `ReadKey` runs `Quit`, the read goes
on and returns "y", and the quit command runs `Quit` again, on a backend that
is already closed. -/
theorem Run_reaches_second_close :
    closeCount exampleStart.ui = 0 ∧
    (∃ s w, Run sampleBackend (exampleHandle sampleBackend) 5 helpCommand.zero exampleStart
          [.KeyboardEvent "q", .KeyboardEvent "y"] = some (.ok (s, w)) ∧
        w.app.quitFlag = true ∧ closeCount w.ui = 1 ∧ closedAgain w.ui = false) ∧
    (∃ s w, Run sampleBackend (exampleHandle sampleBackend) 5 helpCommand.zero exampleStart
          [.KeyboardEvent "q", .KeyboardEvent "<C-c>", .KeyboardEvent "y"] = some (.ok (s, w)) ∧
        closeCount w.ui = 2 ∧ closedAgain w.ui = true) :=
  ⟨by decide, ⟨_, _, rfl, by decide, by decide, by decide⟩, ⟨_, _, rfl, by decide, by decide⟩⟩

/-! ## C17: the help command -/

theorem NewAndAddWidget_ok (tui : Backend) (w : World) (c : Command) (d : Drawable)
    (weight : Int) (h1 : 1 ≤ weight) (h2 : weight ≤ 10) :
    NewAndAddWidget tui w (some c) (some d) weight =
      (redrawWidgets tui (recalculateWidgetSizes
        { w with
          heap := w.heap ++ [{ drawable := d, title := c.title, weight := weight,
                               visible := false }]
          app := { w.app with widgets := w.app.widgets ++ [w.heap.length] } }),
        some w.heap.length, none) := by
  have h : ¬ (weight < 1 ∨ weight > 10) := by omega
  simp [NewAndAddWidget, NewWidget, h]

theorem recalcCount_redraw_recalculate (tui : Backend) (w : World) :
    recalcCount (redrawWidgets tui (recalculateWidgetSizes w)).ui = recalcCount w.ui + 1 := by
  rw [redraw_recalculate_eq]
  exact recalcCount_append_redraw _ _ _ _ _ _ _ _ _ _

/-- The first run of `helpCommand.Handle`: the widget is created at the next
free address, which recalculates the layout once, and is then shown, which
recalculates it once more. -/
theorem helpCommand_Handle_first (tui : Backend) (w : World) :
    ∃ w1 : World,
      helpCommand.Handle tui helpCommand.zero w =
        ({ state := .helpCommandStateVisible, widget := some w.heap.length }, w1, none) ∧
      (deref w1.heap w.heap.length).visible = true ∧
      w1.heap.length = w.heap.length + 1 ∧
      w1.app.widgets = w.app.widgets ++ [w.heap.length] ∧
      w1.app.state = w.app.state ∧
      w1.app.commands = w.app.commands ∧
      recalcCount w1.ui = recalcCount w.ui + 2 := by
  obtain ⟨wa, hwa⟩ : ∃ wa : World, wa =
      { w with
        heap := w.heap ++ [({ drawable := helpDrawable, title := helpCommand.toCommand.title,
                                weight := 4, visible := false } : Widget)]
        app := { w.app with widgets := w.app.widgets ++ [w.heap.length] } } := ⟨_, rfl⟩
  have hnew : NewAndAddWidget tui w (some helpCommand.toCommand) (some helpDrawable) 4 =
      (redrawWidgets tui (recalculateWidgetSizes wa), some w.heap.length, none) := by
    rw [hwa]
    exact NewAndAddWidget_ok tui w helpCommand.toCommand helpDrawable 4 (by decide) (by decide)
  obtain ⟨wb, hwb⟩ : ∃ wb : World, wb = redrawWidgets tui (recalculateWidgetSizes wa) :=
    ⟨_, rfl⟩
  rw [← hwb] at hnew
  have hfr := redraw_recalculate_frame tui wa
  rw [← hwb] at hfr
  have hcnt : recalcCount wb.ui = recalcCount w.ui + 1 := by
    rw [hwb, recalcCount_redraw_recalculate, hwa]
  have hheap : wb.heap = w.heap ++ [({ drawable := helpDrawable,
                                       title := helpCommand.toCommand.title,
                                       weight := 4, visible := false } : Widget)] := by
    rw [hfr.1, hwa]
  have hwidgets : wb.app.widgets = w.app.widgets ++ [w.heap.length] := by
    rw [hfr.2, hwa]
  have hstate : wb.app.state = w.app.state := by rw [hfr.2, hwa]
  have hcmds : wb.app.commands = w.app.commands := by rw [hfr.2, hwa]
  have hhid : (deref wb.heap w.heap.length).visible = false := by
    rw [hheap, deref_append_new]
  have hlive : w.heap.length < wb.heap.length := by
    rw [hheap]; simp
  have hshow := ShowWidget_hidden tui wb w.heap.length hhid
  obtain ⟨wc, hwc⟩ : ∃ wc : World, wc =
      { wb with
        heap := wb.heap.set w.heap.length { deref wb.heap w.heap.length with visible := true } } :=
    ⟨_, rfl⟩
  rw [← hwc] at hshow
  have hfr2 := redraw_recalculate_frame tui wc
  have hcnt2 := recalcCount_redraw_recalculate tui wc
  refine ⟨redrawWidgets tui (recalculateWidgetSizes wc), ?_, ?_, ?_, ?_, ?_, ?_, ?_⟩
  · simp [helpCommand.Handle, helpCommand.zero, hnew, helpCommand.toggle, helpCommand.showWidget,
      hshow]
  · rw [hfr2.1, hwc]
    simp only
    rw [deref_setVisible wb.heap w.heap.length w.heap.length true hlive]
    simp
  · rw [hfr2.1, hwc]
    simp only [List.length_set]
    rw [hheap]; simp
  · rw [hfr2.2, hwc]; exact hwidgets
  · rw [hfr2.2, hwc]; exact hstate
  · rw [hfr2.2, hwc]; exact hcmds
  · rw [hcnt2, hwc]; simp only; rw [hcnt]

/-- A later run of `helpCommand.Handle` on a shown widget hides it, with one
recalculation. -/
theorem helpCommand_Handle_second (tui : Backend) (w : World) (p : Nat)
    (hvis : (deref w.heap p).visible = true) :
    ∃ w2 : World,
      helpCommand.Handle tui { state := .helpCommandStateVisible, widget := some p } w =
        ({ state := .helpCommandStateHidden, widget := some p }, w2, none) ∧
      (deref w2.heap p).visible = false ∧
      recalcCount w2.ui = recalcCount w.ui + 1 := by
  have hp := visible_lt_length w.heap p hvis
  have hhide := HideWidget_visible tui w p hvis
  obtain ⟨wc, hwc⟩ : ∃ wc : World, wc =
      { w with heap := w.heap.set p { deref w.heap p with visible := false } } := ⟨_, rfl⟩
  rw [← hwc] at hhide
  have hfr := redraw_recalculate_frame tui wc
  have hcnt := recalcCount_redraw_recalculate tui wc
  refine ⟨redrawWidgets tui (recalculateWidgetSizes wc), ?_, ?_, ?_⟩
  · simp [helpCommand.Handle, helpCommand.toggle, helpCommand.hideWidget, hhide]
  · rw [hfr.1, hwc]
    simp only
    rw [deref_setVisible w.heap p p false hp]
    simp
  · rw [hcnt, hwc]

theorem exampleHandle_help (tui : Backend) (c : helpCommand) (w : World) :
    exampleHandle tui helpCommand.toCommand c w = .ok (helpCommand.Handle tui c w) := by
  have hne : helpCommand.toCommand ≠ quitCommand.toCommand := by decide
  simp [exampleHandle, hne]

theorem keyboardInputNormal_help (tui : Backend) (c : helpCommand) (w : World)
    (c' : helpCommand) (w' : World)
    (hbound : findCommandByTrigger w.app "h" = some helpCommand.toCommand)
    (hrun : helpCommand.Handle tui c w = (c', w', none)) :
    keyboardInputNormal tui (exampleHandle tui) c w "h" = .ok (c', w') := by
  have hne : ("h" : String) ≠ ">" := by decide
  simp [keyboardInputNormal, hne, hbound, exampleHandle_help, hrun]

/-- C17, as stated, fails: in the example application, whose start-up has
recalculated the layout once, the first trigger of "h" shows the help widget
and leaves three recalculations recorded, two more than before and not one. -/
theorem C17_first_trigger_recalculates_twice :
    recalcCount exampleStart.ui = 1 ∧
    ∃ c1 w1, handleKeyboardInput sampleBackend (exampleHandle sampleBackend) helpCommand.zero
          exampleStart "h" = .ok (c1, w1) ∧
        c1.widget = some 0 ∧
        (deref w1.heap 0).visible = true ∧
        recalcCount w1.ui = 3 :=
  ⟨by decide, _, _, rfl, rfl, by decide, by decide⟩

/-- C17, amended: in Normal state with the help command bound to "h" and not
yet initialised, the first trigger of "h" creates the help widget and makes
its visibility flag true, with two layout recalculations (one by
`NewAndAddWidget`, one by `ShowWidget`); the second trigger makes the flag
false, with exactly one recalculation. -/
theorem C17_help_toggles_widget (tui : Backend) (w : World)
    (hstate : w.app.state = .applicationStateNormal)
    (hbound : findCommandByTrigger w.app "h" = some helpCommand.toCommand) :
    ∃ (c1 : helpCommand) (w1 : World) (c2 : helpCommand) (w2 : World),
      handleKeyboardInput tui (exampleHandle tui) helpCommand.zero w "h" = .ok (c1, w1) ∧
      c1.widget = some w.heap.length ∧
      (deref w1.heap w.heap.length).visible = true ∧
      recalcCount w1.ui = recalcCount w.ui + 2 ∧
      handleKeyboardInput tui (exampleHandle tui) c1 w1 "h" = .ok (c2, w2) ∧
      c2.widget = some w.heap.length ∧
      (deref w2.heap w.heap.length).visible = false ∧
      recalcCount w2.ui = recalcCount w1.ui + 1 := by
  obtain ⟨w1, hrun1, hvis1, _, _, hstate1, hcmds1, hcnt1⟩ := helpCommand_Handle_first tui w
  obtain ⟨w2, hrun2, hvis2, hcnt2⟩ := helpCommand_Handle_second tui w1 w.heap.length hvis1
  have hstate1' : w1.app.state = .applicationStateNormal := by rw [hstate1]; exact hstate
  have hbound1 : findCommandByTrigger w1.app "h" = some helpCommand.toCommand := by
    unfold findCommandByTrigger at hbound ⊢
    rw [hcmds1]; exact hbound
  refine ⟨{ state := .helpCommandStateVisible, widget := some w.heap.length }, w1,
    { state := .helpCommandStateHidden, widget := some w.heap.length }, w2,
    ?_, rfl, hvis1, hcnt1, ?_, rfl, hvis2, hcnt2⟩
  · rw [handleKeyboardInput_normal _ _ _ _ _ hstate]
    exact keyboardInputNormal_help tui _ w _ w1 hbound hrun1
  · rw [handleKeyboardInput_normal _ _ _ _ _ hstate1']
    exact keyboardInputNormal_help tui _ w1 _ w2 hbound1 hrun2

/-- C17 amended, at a concrete input: the example application as `main`
starts the loop on it. -/
theorem C17_help_toggles_widget_witness :
    (exampleStart.app.state = .applicationStateNormal ∧
      findCommandByTrigger exampleStart.app "h" = some helpCommand.toCommand) ∧
    (∃ (c1 : helpCommand) (w1 : World) (c2 : helpCommand) (w2 : World),
      handleKeyboardInput sampleBackend (exampleHandle sampleBackend) helpCommand.zero exampleStart "h" = .ok (c1, w1) ∧
      c1.widget = some exampleStart.heap.length ∧
      (deref w1.heap exampleStart.heap.length).visible = true ∧
      recalcCount w1.ui = recalcCount exampleStart.ui + 2 ∧
      handleKeyboardInput sampleBackend (exampleHandle sampleBackend) c1 w1 "h" = .ok (c2, w2) ∧
      c2.widget = some exampleStart.heap.length ∧
      (deref w2.heap exampleStart.heap.length).visible = false ∧
      recalcCount w2.ui = recalcCount w1.ui + 1) :=
  ⟨by decide, C17_help_toggles_widget sampleBackend exampleStart (by decide) (by decide)⟩

/-! ## C19: the line-entry key -/

/-- C19: in Normal state the key ">" makes `handleKeyboardInput` return
normally, whatever the `Handle` hooks and the registry are and with the state
of the embedding program untouched (no hook is invoked, also when a command
is registered under ">"); the state becomes Typing and the text of the
command-line paragraph becomes "> ", which is rendered; the log, the
registry, the widgets and their objects and every other field of the
application are unchanged. -/
theorem C19_line_entry_key_enters_typing {σ : Type} (tui : Backend) (handle : Handler σ) (s : σ)
    (w : World) (hstate : w.app.state = .applicationStateNormal) :
    ∃ w' : World,
      handleKeyboardInput tui handle s w ">" = .ok (s, w') ∧
      (∀ handle' : Handler σ, handleKeyboardInput tui handle' s w ">" = .ok (s, w')) ∧
      w'.app.state = .applicationStateTyping ∧
      w'.app.cmdWidget.text = "> " ∧
      w'.app.mainText = w.app.mainText ∧
      w'.app.commands = w.app.commands ∧
      w'.app.widgets = w.app.widgets ∧
      w'.heap = w.heap ∧
      w'.app = { w.app with
        state := .applicationStateTyping,
        cmdWidget := { w.app.cmdWidget with text := "> " } } ∧
      w'.ui = w.ui ++ [.renderCmd] := by
  have hrun : ∀ handle' : Handler σ, handleKeyboardInput tui handle' s w ">" =
      .ok (s, { w with
        app := { w.app with
          state := .applicationStateTyping,
          cmdWidget := { w.app.cmdWidget with text := "> " } },
        ui := w.ui ++ [.renderCmd] }) := by
    intro handle'
    rw [handleKeyboardInput_normal tui handle' s w ">" hstate]
    simp [keyboardInputNormal]
  exact ⟨_, hrun handle, hrun, rfl, rfl, rfl, rfl, rfl, rfl, rfl, rfl⟩

/-- C19 at a concrete input: a command is registered under ">" with a hook
that counts its invocations; the count stays 0. -/
theorem C19_line_entry_key_enters_typing_witness :
    promptBoundWorld.app.state = .applicationStateNormal ∧
    findCommandByTrigger promptBoundWorld.app ">" = some (sampleCommand 3 ">") ∧
    ∃ w' : World,
      handleKeyboardInput sampleBackend failingHandler 0 promptBoundWorld ">" = .ok (0, w') ∧
      (∀ handle' : Handler Nat,
        handleKeyboardInput sampleBackend handle' 0 promptBoundWorld ">" = .ok (0, w')) ∧
      w'.app.state = .applicationStateTyping ∧
      w'.app.cmdWidget.text = "> " ∧
      w'.app.mainText = promptBoundWorld.app.mainText ∧
      w'.app.commands = promptBoundWorld.app.commands ∧
      w'.app.widgets = promptBoundWorld.app.widgets ∧
      w'.heap = promptBoundWorld.heap ∧
      w'.app = { promptBoundWorld.app with
        state := .applicationStateTyping,
        cmdWidget := { promptBoundWorld.app.cmdWidget with text := "> " } } ∧
      w'.ui = promptBoundWorld.ui ++ [.renderCmd] :=
  ⟨by decide, by decide,
    C19_line_entry_key_enters_typing sampleBackend failingHandler 0 promptBoundWorld (by decide)⟩

/-! ## C20: the window of the log -/

theorem displayText_eq (mainText : List String) (y : Int) :
    displayText mainText y =
      if mainText.length > 0 then
        String.intercalate "\n" (mainText.drop (displayStart mainText.length y).toNat)
      else "" := rfl

/-- A result inside the 64-bit range is not changed by the wrap. -/
theorem wrapInt64_eq (x : Int) (h1 : -9223372036854775808 ≤ x) (h2 : x ≤ 9223372036854775807) :
    wrapInt64 x = x := by
  unfold wrapInt64
  omega

/-- Whatever the height, wrapped or not, the start index lies inside a
non-empty log. -/
theorem displayStart_range (n : Nat) (y : Int) (hn : 0 < n) :
    0 ≤ displayStart n y ∧ displayStart n y ≤ (n : Int) - 1 := by
  unfold displayStart
  simp only
  split_ifs <;> omega

/-- When `n - y + 2` is computed without leaving the 64-bit range, the window
holds `max 1 (min n (y - 2))` lines. -/
theorem displayStart_count (n : Nat) (y : Int) (hn : 0 < n)
    (h1 : -9223372036854775808 ≤ (n : Int) - y) (h2 : (n : Int) - y + 2 ≤ 9223372036854775807) :
    (n : Int) - displayStart n y = max 1 (min (n : Int) (y - 2)) := by
  unfold displayStart
  rw [wrapInt64_eq ((n : Int) - y) h1 (by omega), wrapInt64_eq ((n : Int) - y + 2) (by omega) h2]
  simp only
  split_ifs <;> omega

/-- C20, as stated, fails for an oversized negative height: for a log of
eight lines and the height -9223372036854775803 the subtraction
`len - Y + 2` wraps to a negative number, the start index becomes 0 and all
eight lines are shown, whereas `max 1 (min len (h - 2))` is 1. -/
theorem C20_oversized_height_shows_whole_log :
    displayStart eightLines.length (-9223372036854775803) = 0 ∧
    displayText eightLines (-9223372036854775803) = "a\nb\nc\nd\ne\nf\ng\nh" ∧
    (eightLines.drop (displayStart eightLines.length (-9223372036854775803)).toNat).length = 8 ∧
    max 1 (min (eightLines.length : Int) (-9223372036854775803 - 2)) = 1 := by
  decide

/-- C20, amended: `refreshMainWidget` shows `displayText` of the log for the
height the backend reports and leaves the log alone.  For an empty log the
text is empty.  For a non-empty log and every height `y`, also one for which
the 64-bit subtraction wraps, the start index lies in `0 .. len - 1`, so the
slice is in bounds; the text is the join of the lines from that index on,
which are a suffix of the log, at least one line, and include its most recent
line.  When `len - y + 2` does not leave the 64-bit range, these are the last
`max 1 (min len (y - 2))` lines. -/
theorem C20_display_window_in_bounds (tui : Backend) (w : World) (mainText : List String)
    (y : Int) :
    (refreshMainWidget tui w).app.mainWidget.text =
        displayText w.app.mainText (tui.mainWidgetSizeY w.ui) ∧
    (refreshMainWidget tui w).app.mainText = w.app.mainText ∧
    (mainText = [] → displayText mainText y = "") ∧
    (mainText ≠ [] →
      0 ≤ displayStart mainText.length y ∧
      displayStart mainText.length y ≤ (mainText.length : Int) - 1 ∧
      displayText mainText y =
        String.intercalate "\n" (mainText.drop (displayStart mainText.length y).toNat) ∧
      mainText.drop (displayStart mainText.length y).toNat <:+ mainText ∧
      1 ≤ (mainText.drop (displayStart mainText.length y).toNat).length ∧
      (mainText.drop (displayStart mainText.length y).toNat).getLast? = mainText.getLast? ∧
      (-9223372036854775808 ≤ (mainText.length : Int) - y →
        (mainText.length : Int) - y + 2 ≤ 9223372036854775807 →
        ((mainText.drop (displayStart mainText.length y).toNat).length : Int) =
          max 1 (min (mainText.length : Int) (y - 2)))) := by
  refine ⟨rfl, rfl, ?_, ?_⟩
  · intro h
    subst h
    rfl
  · intro h
    have hn : 0 < mainText.length := List.length_pos.mpr h
    obtain ⟨h0, h1⟩ := displayStart_range mainText.length y hn
    refine ⟨h0, h1, ?_, List.drop_suffix _ _, ?_, ?_, ?_⟩
    · rw [displayText_eq, if_pos hn]
    · rw [List.length_drop]
      omega
    · rw [List.getLast?_drop]
      have hlt : ¬ mainText.length ≤ (displayStart mainText.length y).toNat := by omega
      rw [if_neg hlt]
    · intro hlo hhi
      have h2 := displayStart_count mainText.length y hn hlo hhi
      rw [List.length_drop]
      omega

/-- C20 amended, at concrete inputs: a log of eight lines with the height 6
(the last four lines are shown), 0 (one line) and 100 (the whole log). -/
theorem C20_display_window_in_bounds_witness :
    (eightLines ≠ [] ∧
      -9223372036854775808 ≤ (eightLines.length : Int) - 6 ∧
      (eightLines.length : Int) - 6 + 2 ≤ 9223372036854775807) ∧
    ((refreshMainWidget sampleBackend exampleStart).app.mainWidget.text =
        displayText exampleStart.app.mainText (sampleBackend.mainWidgetSizeY exampleStart.ui) ∧
      (refreshMainWidget sampleBackend exampleStart).app.mainText = exampleStart.app.mainText ∧
      (eightLines = [] → displayText eightLines 6 = "") ∧
      (eightLines ≠ [] →
        0 ≤ displayStart eightLines.length 6 ∧
        displayStart eightLines.length 6 ≤ (eightLines.length : Int) - 1 ∧
        displayText eightLines 6 =
          String.intercalate "\n" (eightLines.drop (displayStart eightLines.length 6).toNat) ∧
        eightLines.drop (displayStart eightLines.length 6).toNat <:+ eightLines ∧
        1 ≤ (eightLines.drop (displayStart eightLines.length 6).toNat).length ∧
        (eightLines.drop (displayStart eightLines.length 6).toNat).getLast?
          = eightLines.getLast? ∧
        (-9223372036854775808 ≤ (eightLines.length : Int) - 6 →
          (eightLines.length : Int) - 6 + 2 ≤ 9223372036854775807 →
          ((eightLines.drop (displayStart eightLines.length 6).toNat).length : Int) =
            max 1 (min (eightLines.length : Int) (6 - 2))))) ∧
    ((eightLines.drop (displayStart eightLines.length 6).toNat).length : Int) =
      max 1 (min (eightLines.length : Int) (6 - 2)) ∧
    displayText eightLines 6 = "e\nf\ng\nh" ∧
    displayText eightLines 0 = "h" ∧
    displayText eightLines 100 = "a\nb\nc\nd\ne\nf\ng\nh" :=
  ⟨by decide, C20_display_window_in_bounds sampleBackend exampleStart eightLines 6,
    ((C20_display_window_in_bounds sampleBackend exampleStart eightLines 6).2.2.2
      (by decide)).2.2.2.2.2.2 (by decide) (by decide),
    by decide, by decide, by decide⟩

/-! ## C18: the log after a resize -/

/-- C18, as stated, fails: with no widget and a log of eight lines, a resize
to the height 9 gives the grid, and with it the main paragraph, 9 - 3 = 6
rows, fewer than the log has lines; the paragraph then shows the last four
lines of the log, not six. -/
theorem C18_resize_shows_four_lines_not_six :
    eightLineWorld.app.mainText = eightLines ∧
    eightLineWorld.app.widgets = [] ∧
    ∃ w', handleDefaultEvent fullHeightBackend
          (withEvents eightLineWorld [.ResizeEvent 80 9]) = .ok (w', none) ∧
        w'.app.size = (80, 9) ∧
        lastGridHeight w'.ui = 9 - 3 ∧
        w'.app.mainText = eightLines ∧
        w'.app.mainWidget.text = "e\nf\ng\nh" ∧
        (splitNewline w'.app.mainWidget.text.data).length = 4 :=
  ⟨by decide, by decide, _, rfl, by decide, by decide, by decide, by decide, by decide⟩

/-- C18, amended: let the next event be a resize to `width` by `height`, let
`y` be the height the backend reports for the main paragraph once the grid is
rendered with the new layout, with `3 ≤ y`, and let the log have more than
`y - 2` lines (and, as every Go slice, fewer than 2^63).  After the event the
size is `(width, height)`, the log is unchanged, and the main paragraph shows
the join of the last `y - 2` lines of the log, two fewer than its height.
Hence, whenever the backend gives the paragraph the `height - 3` rows of the
grid, `height - 5` lines are shown, not `height - 3`. -/
theorem C18_resize_shows_panel_height_less_two (tui : Backend) (w : World)
    (width height : Int) (rest : List Event) (y : Int)
    (hchan : w.app.uiEventChan = .ResizeEvent width height :: rest)
    (hy : tui.mainWidgetSizeY (w.ui ++
        [ .gridSetRect 0 0 width (height - 3),
          .gridSet (layoutRows w.heap w.app.widgets),
          .cmdSetRect 0 (height - 3) width height,
          .clear, .renderGridAndCmd ]) = y)
    (hy3 : 3 ≤ y) (hmore : y - 2 < (w.app.mainText.length : Int))
    (hlen : (w.app.mainText.length : Int) ≤ 9223372036854775807) :
    ∃ w' : World,
      handleDefaultEvent tui w = .ok (w', none) ∧
      w'.app.size = (width, height) ∧
      w'.app.mainText = w.app.mainText ∧
      w'.app.mainWidget.text =
        String.intercalate "\n"
          (w.app.mainText.drop (w.app.mainText.length - (y - 2).toNat)) ∧
      ((w.app.mainText.drop (w.app.mainText.length - (y - 2).toNat)).length : Int) = y - 2 ∧
      w.app.mainText.drop (w.app.mainText.length - (y - 2).toNat) <:+ w.app.mainText ∧
      (y = height - 3 →
        ((w.app.mainText.drop (w.app.mainText.length - (y - 2).toNat)).length : Int)
            = height - 5 ∧
        ((w.app.mainText.drop (w.app.mainText.length - (y - 2).toNat)).length : Int)
            ≠ height - 3) := by
  have hlen' : ((w.app.mainText.drop (w.app.mainText.length - (y - 2).toNat)).length : Int)
      = y - 2 := by
    rw [List.length_drop]
    omega
  have hpos : w.app.mainText.length > 0 := by omega
  have hcount := displayStart_count w.app.mainText.length y hpos (by omega) (by omega)
  have hrange := displayStart_range w.app.mainText.length y hpos
  have hstart : (displayStart w.app.mainText.length y).toNat
      = w.app.mainText.length - (y - 2).toNat := by
    omega
  refine ⟨onTerminalResize tui (withEvents w rest) (width, height),
    handleDefaultEvent_resize tui w width height rest hchan, ?_, ?_, ?_, hlen',
    List.drop_suffix _ _, ?_⟩
  · rw [onTerminalResize_eq]
  · rw [onTerminalResize_eq]; rfl
  · have htext : (onTerminalResize tui (withEvents w rest) (width, height)).app.mainWidget.text
        = displayText w.app.mainText y := by
      rw [onTerminalResize_eq, ← hy]; rfl
    rw [htext, displayText_eq, if_pos hpos, hstart]
  · intro hyh
    rw [hlen']
    constructor <;> omega

/-- C18 amended, at a concrete input: the log of eight lines and a resize to
the height 9, where the backend gives the paragraph the 9 - 3 rows of the
grid: four lines are shown. -/
theorem C18_resize_shows_panel_height_less_two_witness :
    ((withEvents eightLineWorld [.ResizeEvent 80 9]).app.uiEventChan = .ResizeEvent 80 9 :: [] ∧
      fullHeightBackend.mainWidgetSizeY ((withEvents eightLineWorld [.ResizeEvent 80 9]).ui ++
        [ .gridSetRect 0 0 80 (9 - 3),
          .gridSet (layoutRows (withEvents eightLineWorld [.ResizeEvent 80 9]).heap
            (withEvents eightLineWorld [.ResizeEvent 80 9]).app.widgets),
          .cmdSetRect 0 (9 - 3) 80 9,
          .clear, .renderGridAndCmd ]) = 6 ∧
      (3 : Int) ≤ 6 ∧
      (6 : Int) - 2 < ((withEvents eightLineWorld [.ResizeEvent 80 9]).app.mainText.length : Int) ∧
      ((withEvents eightLineWorld [.ResizeEvent 80 9]).app.mainText.length : Int)
        ≤ 9223372036854775807 ∧
      (6 : Int) = 9 - 3) ∧
    (∃ w' : World,
      handleDefaultEvent fullHeightBackend (withEvents eightLineWorld [.ResizeEvent 80 9]) = .ok (w', none) ∧
      w'.app.size = (80, 9) ∧
      w'.app.mainText = (withEvents eightLineWorld [.ResizeEvent 80 9]).app.mainText ∧
      w'.app.mainWidget.text =
        String.intercalate "\n"
          ((withEvents eightLineWorld [.ResizeEvent 80 9]).app.mainText.drop ((withEvents eightLineWorld [.ResizeEvent 80 9]).app.mainText.length - ((6 : Int) - 2).toNat)) ∧
      (((withEvents eightLineWorld [.ResizeEvent 80 9]).app.mainText.drop ((withEvents eightLineWorld [.ResizeEvent 80 9]).app.mainText.length - ((6 : Int) - 2).toNat)).length : Int) = (6 : Int) - 2 ∧
      (withEvents eightLineWorld [.ResizeEvent 80 9]).app.mainText.drop ((withEvents eightLineWorld [.ResizeEvent 80 9]).app.mainText.length - ((6 : Int) - 2).toNat) <:+ (withEvents eightLineWorld [.ResizeEvent 80 9]).app.mainText ∧
      ((6 : Int) = 9 - 3 →
        (((withEvents eightLineWorld [.ResizeEvent 80 9]).app.mainText.drop ((withEvents eightLineWorld [.ResizeEvent 80 9]).app.mainText.length - ((6 : Int) - 2).toNat)).length : Int)
            = 9 - 5 ∧
        (((withEvents eightLineWorld [.ResizeEvent 80 9]).app.mainText.drop ((withEvents eightLineWorld [.ResizeEvent 80 9]).app.mainText.length - ((6 : Int) - 2).toNat)).length : Int)
            ≠ 9 - 3)) :=
  ⟨⟨rfl, by decide, by decide, by decide, by decide, by decide⟩,
    C18_resize_shows_panel_height_less_two fullHeightBackend
      (withEvents eightLineWorld [.ResizeEvent 80 9]) 80 9 [] 6 rfl (by decide) (by decide)
      (by decide) (by decide)⟩

/-! ## C16: closing the backend -/

theorem closeCount_append (a b : List UiCall) :
    closeCount (a ++ b) = closeCount a + closeCount b := by
  simp [closeCount, List.countP_append]

theorem closeCount_le_one_of_not_closedAgain (ui : List UiCall) :
    closedAgain ui = false → closeCount ui ≤ 1 := by
  induction ui with
  | nil => intro _; simp [closeCount]
  | cons c rest ih =>
    intro h
    cases c <;>
      first
        | (simp only [closedAgain] at h
           have := ih h
           simpa [closeCount, List.countP_cons] using this)
        | (simp only [closedAgain, decide_eq_false_iff_not, Nat.not_lt, Nat.le_zero] at h
           simp only [closeCount] at h
           simp [closeCount, List.countP_cons, h])

theorem NoQuit.refl (w : World) : NoQuit w w := ⟨rfl, rfl⟩

theorem NoQuit.trans {a b c : World} (h1 : NoQuit a b) (h2 : NoQuit b c) : NoQuit a c :=
  ⟨h2.1.trans h1.1, h2.2.trans h1.2⟩

theorem NoQuit.quitClosed {w w' : World} (h : NoQuit w w') (hq : QuitClosed w) :
    QuitClosed w' := by
  intro hf
  rw [h.2]
  exact hq (h.1 ▸ hf)

theorem noQuit_Printf (tui : Backend) (w : World) (str : String) :
    NoQuit w (Printf tui w str) := by
  rw [Printf_eq]
  exact ⟨rfl, by simp [closeCount_append, closeCount]⟩

theorem noQuit_redraw_recalculate (tui : Backend) (w : World) :
    NoQuit w (redrawWidgets tui (recalculateWidgetSizes w)) := by
  rw [redraw_recalculate_eq]
  exact ⟨rfl, by simp [closeCount_append, closeCount]⟩

theorem noQuit_onTerminalResize (tui : Backend) (w : World) (size : Int × Int) :
    NoQuit w (onTerminalResize tui w size) := by
  rw [onTerminalResize_eq]
  exact ⟨rfl, by simp [closeCount_append, closeCount]⟩

theorem quitClosed_Quit (w : World) : QuitClosed (Quit w) := by
  intro _
  simp [Quit, closeCount_append, closeCount]

theorem noQuit_NewAndAddWidget (tui : Backend) (w : World) (command : Option Command)
    (widget : Option Drawable) (weight : Int) :
    NoQuit w (NewAndAddWidget tui w command widget weight).1 := by
  cases command with
  | none => exact NoQuit.refl w
  | some c =>
    cases widget with
    | none => exact NoQuit.refl w
    | some d =>
      by_cases hr : weight < 1 ∨ weight > 10
      · have hsame : (NewAndAddWidget tui w (some c) (some d) weight).1 = w := by
          simp [NewAndAddWidget, NewWidget, hr]
        rw [hsame]; exact NoQuit.refl w
      · rw [NewAndAddWidget_ok tui w c d weight (by omega) (by omega)]
        exact NoQuit.trans ⟨rfl, rfl⟩ (noQuit_redraw_recalculate tui _)

theorem noQuit_ShowWidget (tui : Backend) (w : World) (widget : Option Nat) :
    NoQuit w (ShowWidget tui w widget).1 := by
  cases widget with
  | none => exact NoQuit.refl w
  | some p =>
    cases hv : (deref w.heap p).visible with
    | true => rw [ShowWidget_visible tui w p hv]; exact NoQuit.refl w
    | false =>
      rw [ShowWidget_hidden tui w p hv]
      exact NoQuit.trans ⟨rfl, rfl⟩ (noQuit_redraw_recalculate tui _)

theorem noQuit_HideWidget (tui : Backend) (w : World) (widget : Option Nat) :
    NoQuit w (HideWidget tui w widget).1 := by
  cases widget with
  | none => exact NoQuit.refl w
  | some p =>
    cases hv : (deref w.heap p).visible with
    | false => rw [HideWidget_hidden tui w p hv]; exact NoQuit.refl w
    | true =>
      rw [HideWidget_visible tui w p hv]
      exact NoQuit.trans ⟨rfl, rfl⟩ (noQuit_redraw_recalculate tui _)

theorem noQuit_helpCommand_toggle (tui : Backend) (c : helpCommand) (w : World) :
    NoQuit w (helpCommand.toggle tui c w).2.1 := by
  unfold helpCommand.toggle
  cases c.state with
  | helpCommandStateHidden => exact noQuit_ShowWidget tui w _
  | helpCommandStateVisible => exact noQuit_HideWidget tui w _
  | helpCommandStateUninitialized => exact NoQuit.refl w

theorem noQuit_helpCommand_Handle (tui : Backend) (c : helpCommand) (w : World) :
    NoQuit w (helpCommand.Handle tui c w).2.1 := by
  unfold helpCommand.Handle
  have hnew := noQuit_NewAndAddWidget tui w (some helpCommand.toCommand) (some helpDrawable) 4
  split
  · split
    · rename_i w1 widget err heq
      rw [heq] at hnew
      exact hnew
    · rename_i w1 widget heq
      rw [heq] at hnew
      exact NoQuit.trans hnew (noQuit_helpCommand_toggle tui _ w1)
  · exact noQuit_helpCommand_toggle tui c w

theorem quitClosed_handleDefaultEvent (tui : Backend) (w w' : World) (r : Option Event)
    (h : handleDefaultEvent tui w = .ok (w', r)) (hq : QuitClosed w) : QuitClosed w' := by
  cases hchan : w.app.uiEventChan with
  | nil => rw [handleDefaultEvent_empty tui w hchan] at h; cases h
  | cons e rest =>
    have hw : NoQuit w (withEvents w rest) := ⟨rfl, rfl⟩
    cases e with
    | KeyboardEvent id =>
      by_cases hid : id = "<C-c>"
      · subst hid
        rw [handleDefaultEvent_ctrl_c tui w rest hchan] at h
        injection h with h
        injection h with h1 _
        rw [← h1]
        exact quitClosed_Quit _
      · rw [handleDefaultEvent_key tui w id rest hchan hid] at h
        injection h with h
        injection h with h1 _
        rw [← h1]
        exact hw.quitClosed hq
    | ResizeEvent width height =>
      rw [handleDefaultEvent_resize tui w width height rest hchan] at h
      injection h with h
      injection h with h1 _
      rw [← h1]
      exact (NoQuit.trans hw (noQuit_onTerminalResize tui _ _)).quitClosed hq
    | MouseEvent id =>
      rw [handleDefaultEvent_mouse tui w id rest hchan] at h
      injection h with h
      injection h with h1 _
      rw [← h1]
      exact hw.quitClosed hq

theorem quitClosed_ReadKeyLoop (tui : Backend) :
    ∀ (fuel : Nat) (w w' : World) (id : String) (err : Option String),
      ReadKeyLoop tui fuel w = .ok (w', id, err) → QuitClosed w → QuitClosed w' := by
  intro fuel
  induction fuel with
  | zero => intro w w' id err h _; simp [ReadKeyLoop] at h
  | succ n ih =>
    intro w w' id err h hq
    cases hstep : handleDefaultEvent tui w with
    | error a => simp [ReadKeyLoop, hstep] at h
    | ok res =>
      obtain ⟨w1, ev⟩ := res
      have hq1 := quitClosed_handleDefaultEvent tui w w1 ev hstep hq
      cases ev with
      | some e =>
        simp only [ReadKeyLoop, hstep] at h
        injection h with h
        injection h with h1 _
        rw [← h1]; exact hq1
      | none =>
        rw [ReadKeyLoop_step_none tui n w w1 hstep] at h
        exact ih w1 w' id err h hq1

theorem quitClosed_quitCommand_Handle (tui : Backend) (w w' : World) (err : Option String)
    (h : quitCommand.Handle tui w = .ok (w', err)) (hq : QuitClosed w) : QuitClosed w' := by
  unfold quitCommand.Handle at h
  have hq0 : QuitClosed (Printf tui w "Quit? press 'y' to confirm, any other key to cancel.") :=
    (noQuit_Printf tui w _).quitClosed hq
  cases hread : ReadKey tui (Printf tui w "Quit? press 'y' to confirm, any other key to cancel.")
    with
  | error a => simp [hread] at h
  | ok res =>
    obtain ⟨w1, userInput, e⟩ := res
    have hq1 : QuitClosed w1 := quitClosed_ReadKeyLoop tui _ _ w1 userInput e hread hq0
    cases e with
    | some e1 =>
      simp only [hread] at h
      injection h with h
      injection h with h1 _
      rw [← h1]; exact hq1
    | none =>
      simp only [hread] at h
      by_cases hy : userInput = "y"
      · simp only [hy, if_true] at h
        injection h with h
        injection h with h1 _
        rw [← h1]; exact quitClosed_Quit _
      · simp only [hy, if_false] at h
        injection h with h
        injection h with h1 _
        rw [← h1]; exact (noQuit_Printf tui w1 _).quitClosed hq1

theorem quitClosed_exampleHandle (tui : Backend) (command : Command) (c c' : helpCommand)
    (w w' : World) (err : Option String)
    (h : exampleHandle tui command c w = .ok (c', w', err)) (hq : QuitClosed w) :
    QuitClosed w' := by
  unfold exampleHandle at h
  by_cases hquit : command = quitCommand.toCommand
  · simp only [hquit, if_true] at h
    cases hh : quitCommand.Handle tui w with
    | error a => simp [hh] at h
    | ok res =>
      obtain ⟨w1, e⟩ := res
      simp only [hh] at h
      injection h with h
      injection h with _ h2
      injection h2 with h3 _
      rw [← h3]
      exact quitClosed_quitCommand_Handle tui w w1 e hh hq
  · simp only [hquit, if_false] at h
    by_cases hhelp : command = helpCommand.toCommand
    · simp only [hhelp, if_true] at h
      injection h with h
      have h3 : (helpCommand.Handle tui c w).2.1 = w' := by rw [h]
      rw [← h3]
      exact (noQuit_helpCommand_Handle tui c w).quitClosed hq
    · simp only [hhelp, if_false] at h
      injection h with h
      injection h with _ h2
      injection h2 with h3 _
      rw [← h3]; exact hq

theorem quitClosed_handleKeyboardInput (tui : Backend) (c c' : helpCommand) (w w' : World)
    (id : String)
    (h : handleKeyboardInput tui (exampleHandle tui) c w id = .ok (c', w'))
    (hq : QuitClosed w) : QuitClosed w' := by
  cases hstate : w.app.state with
  | applicationStateTyping =>
    simp only [handleKeyboardInput, hstate] at h
    injection h with h
    injection h with _ h2
    rw [← h2]; exact hq
  | applicationStateSubcommand =>
    simp [handleKeyboardInput, hstate, keyboardInputTyping] at h
  | applicationStateNormal =>
    rw [handleKeyboardInput_normal tui _ c w id hstate] at h
    unfold keyboardInputNormal at h
    by_cases hid : id = ">"
    · simp only [hid, if_true] at h
      injection h with h
      injection h with _ h2
      rw [← h2]
      intro hf
      have := hq hf
      simpa [closeCount_append, closeCount] using this
    · simp only [hid, if_false] at h
      cases hfind : findCommandByTrigger w.app id with
      | none =>
        simp only [hfind] at h
        injection h with h
        injection h with _ h2
        rw [← h2]; exact (noQuit_Printf tui w _).quitClosed hq
      | some command =>
        simp only [hfind] at h
        cases hh : exampleHandle tui command c w with
        | error a => simp [hh] at h
        | ok res =>
          obtain ⟨c1, w1, e⟩ := res
          have hq1 := quitClosed_exampleHandle tui command c c1 w w1 e hh hq
          cases e with
          | some e1 =>
            simp only [hh] at h
            injection h with h
            injection h with _ h2
            rw [← h2]; exact (noQuit_Printf tui w1 _).quitClosed hq1
          | none =>
            simp only [hh] at h
            injection h with h
            injection h with _ h2
            rw [← h2]; exact hq1

theorem quitClosed_RunLoop (tui : Backend) :
    ∀ (fuel : Nat) (c c' : helpCommand) (w w' : World),
      RunLoop tui (exampleHandle tui) fuel c w = some (.ok (c', w')) →
      QuitClosed w → QuitClosed w' := by
  intro fuel
  induction fuel with
  | zero =>
    intro c c' w w' h hq
    by_cases hf : w.app.quitFlag = true
    · simp [RunLoop, hf] at h
      rw [← h.2]; exact hq
    · simp [RunLoop, hf] at h
  | succ n ih =>
    intro c c' w w' h hq
    by_cases hf : w.app.quitFlag = true
    · simp [RunLoop, hf] at h
      rw [← h.2]; exact hq
    · rw [RunLoop] at h
      simp only [hf] at h
      cases hstep : handleDefaultEvent tui w with
      | error a => simp [hstep] at h
      | ok res =>
        obtain ⟨w1, ev⟩ := res
        have hq1 := quitClosed_handleDefaultEvent tui w w1 ev hstep hq
        cases ev with
        | none =>
          simp only [hstep] at h
          exact ih c c' w1 w' h hq1
        | some e =>
          simp only [hstep] at h
          cases hkey : handleKeyboardInput tui (exampleHandle tui) c w1 e.ID with
          | error a => simp [hkey] at h
          | ok res2 =>
            obtain ⟨c2, w2⟩ := res2
            simp only [hkey] at h
            exact ih c2 c' w2 w' h (quitClosed_handleKeyboardInput tui c c2 w1 w2 e.ID hkey hq1)

/-- C16: run the loop of the example, whose quit command is the one bound to
"q", from a world with the quit flag unset and the backend not yet closed, on
any events.  If the loop returns and no `ui.Close()` was made on an already
closed backend (a call that does not return on the terminal backend, so that
a run with one does not terminate), then the quit flag is true and
`ui.Close()` has been executed exactly once. -/
theorem C16_terminating_run_closes_once (tui : Backend) (w : World) (events : List Event)
    (fuel : Nat) (c c' : helpCommand) (w' : World)
    (hq : w.app.quitFlag = false) (hc : closeCount w.ui = 0)
    (hrun : Run tui (exampleHandle tui) fuel c w events = some (.ok (c', w')))
    (hret : closedAgain w'.ui = false) :
    w'.app.quitFlag = true ∧ closeCount w'.ui = 1 ∧ closeCount w'.ui = closeCount w.ui + 1 := by
  have hflag : w'.app.quitFlag = true :=
    RunLoop_ok_quitFlag tui (exampleHandle tui) fuel c c' _ w' hrun
  have hstart : QuitClosed { w with app := { w.app with uiEventChan := events } } := by
    intro hf
    rw [hq] at hf
    cases hf
  have hge : 1 ≤ closeCount w'.ui := quitClosed_RunLoop tui fuel c c' _ w' hrun hstart hflag
  have hle := closeCount_le_one_of_not_closedAgain w'.ui hret
  refine ⟨hflag, ?_, ?_⟩ <;> omega

/-- C16 at a concrete input: the example application run on "q", "y". -/
theorem C16_terminating_run_closes_once_witness :
    exampleStart.app.quitFlag = false ∧ closeCount exampleStart.ui = 0 ∧
    ∃ (c' : helpCommand) (w' : World),
      Run sampleBackend (exampleHandle sampleBackend) 5 helpCommand.zero exampleStart
          [.KeyboardEvent "q", .KeyboardEvent "y"] = some (.ok (c', w')) ∧
      closedAgain w'.ui = false ∧
      (w'.app.quitFlag = true ∧ closeCount w'.ui = 1 ∧
        closeCount w'.ui = closeCount exampleStart.ui + 1) :=
  ⟨by decide, by decide, _, _, rfl, by decide,
    C16_terminating_run_closes_once sampleBackend exampleStart
      [.KeyboardEvent "q", .KeyboardEvent "y"] 5 helpCommand.zero _ _
      (by decide) (by decide) rfl (by decide)⟩

end Ttf
